import Mathlib

/-!
Verification of the ply-zarr core (src/ply_zarr.py): the PLY header codec
(parse_ply_header / attrs_to_ply_header) and the layout mapper
(header_from_mesh / write / read) over a shallow embedding.

Modelling conventions:
* Text is modelled at the line level: a header text is a list of lines and a
  line is a list of characters without its terminating newline.  This matches
  the source, which always processes the byte stream through line iteration
  and joins emitted lines with a single newline (the trailing-newline
  convention on the final line is thereby factored out, as the spec allows).
* Python str.split() (split on runs of whitespace, dropping empties) is
  embedded as words, and " ".join as unwords, over ASCII whitespace.
* Numeric array values are carried as Int: the codec and layout mapper move
  values around but never inspect them, so the carrier is irrelevant; dtypes
  are tracked explicitly as the ten-value table of the source.
* Fallible Python code (exceptions) is embedded as Except PyErr.
-/

namespace PlyZarr

/-- Characters of a string literal, used to keep tokens readable. -/
def str (s : String) : List Char := s.data

/-- ASCII whitespace recognised by Python str.split(). -/
def pyIsSpace (c : Char) : Bool :=
  c = ' ' || c = '\t' || c = '\n' || c = '\x0b' || c = '\x0c' || c = '\r'

/-- Helper for words: acc is the current in-progress word, reversed. -/
def wordsAux : List Char → List Char → List (List Char)
  | [], acc => if acc.isEmpty then [] else [acc.reverse]
  | c :: cs, acc =>
    if pyIsSpace c then
      if acc.isEmpty then wordsAux cs [] else acc.reverse :: wordsAux cs []
    else wordsAux cs (c :: acc)

/-- Python str.split() with no argument: split on whitespace runs, drop empties. -/
def words (s : List Char) : List (List Char) := wordsAux s []

/-- Python " ".join(tokens). -/
def unwords : List (List Char) → List Char
  | [] => []
  | [t] => t
  | t :: ts => t ++ ' ' :: unwords ts

/-- Python str.startswith. -/
def startsWith : List Char → List Char → Bool
  | _, [] => true
  | [], _ :: _ => false
  | c :: cs, p :: ps => c = p && startsWith cs ps

/-- Decimal digit character for d ≤ 9. -/
def digitChar : Nat → Char
  | 0 => '0' | 1 => '1' | 2 => '2' | 3 => '3' | 4 => '4'
  | 5 => '5' | 6 => '6' | 7 => '7' | 8 => '8' | _ => '9'

/-- Numeric value of a decimal digit character. -/
def digitVal (c : Char) : Option Nat :=
  if 48 ≤ c.toNat ∧ c.toNat ≤ 57 then some (c.toNat - 48) else none

/-- Fuelled production of decimal digits, most significant first. -/
def natToCharsAux : Nat → Nat → List Char → List Char
  | 0, _, acc => acc
  | f + 1, n, acc =>
    if n < 10 then digitChar n :: acc
    else natToCharsAux f (n / 10) (digitChar (n % 10) :: acc)

/-- Python str(n) for n : Nat. -/
def natToChars (n : Nat) : List Char := natToCharsAux (n + 1) n []

/-- Python str(i) for i : Int. -/
def intToChars (i : Int) : List Char :=
  if i < 0 then '-' :: natToChars i.natAbs else natToChars i.toNat

/-- Digit-by-digit accumulation of a decimal numeral. -/
def parseNatFrom : List Char → Nat → Option Nat
  | [], acc => some acc
  | c :: cs, acc =>
    match digitVal c with
    | some d => parseNatFrom cs (10 * acc + d)
    | none => none

/-- Python int(token) on the numerals the codec emits: an optional minus sign
followed by at least one decimal digit (int() also accepts surrounding
whitespace, a plus sign and underscores, none of which can reach this parser
from a split token produced by this codec). -/
def parsePyInt : List Char → Option Int
  | [] => none
  | c :: cs =>
    if c = '-' then
      if cs.isEmpty then none else (parseNatFrom cs 0).map (fun n => -(n : Int))
    else (parseNatFrom (c :: cs) 0).map Int.ofNat

/-- Python str.isnumeric restricted to ASCII digits (the only keys the writer
produces are decimal arity strings). -/
def isNumericStr (k : List Char) : Bool :=
  !k.isEmpty && k.all (fun c => (digitVal c).isSome)

/-- Lookup in an insertion-ordered string-keyed dictionary. -/
def dictGet {α : Type} : List (List Char × α) → List Char → Option α
  | [], _ => none
  | (k, v) :: t, key => if k = key then some v else dictGet t key

/-- Python dict assignment d[k] = v: replace in place if the key exists
(keeping its position), otherwise append. -/
def dictSet {α : Type} : List (List Char × α) → List Char → α → List (List Char × α)
  | [], key, v => [(key, v)]
  | (k, w) :: t, key, v =>
    if k = key then (key, v) :: t else (k, w) :: dictSet t key v

/-- collections.defaultdict(list): d[k].append(v). -/
def cdAppend {α : Type} : List (List Char × List α) → List Char → α → List (List Char × List α)
  | [], key, v => [(key, [v])]
  | (k, vs) :: t, key, v =>
    if k = key then (k, vs ++ [v]) :: t else (k, vs) :: cdAppend t key v

instance {ε α : Type} [DecidableEq ε] [DecidableEq α] : DecidableEq (Except ε α) := fun a b =>
  match a, b with
  | .ok x, .ok y =>
    if h : x = y then .isTrue (by rw [h]) else .isFalse (by simp [h])
  | .error x, .error y =>
    if h : x = y then .isTrue (by rw [h]) else .isFalse (by simp [h])
  | .ok _, .error _ => .isFalse (by simp)
  | .error _, .ok _ => .isFalse (by simp)

/-- Python exceptions raised by the source, one constructor per distinct
fault site family. formatError is the IOError("Not a ply file"); stateError
is the NameError from using the undefined current-element variable; ioError
is the IOError("Could not write ply header from mesh"). -/
inductive PyErr where
  | formatError
  | stateError
  | valueError
  | indexError
  | keyError
  | ioError
  | containsGroup
  | attrError
deriving DecidableEq, Repr

/-- One element of the header record: attrs["elements"][name]. -/
structure ElemDesc where
  size : Int
  props : List (List (List Char))
deriving DecidableEq, Repr

/-- The header record parse_ply_header builds and attrs_to_ply_header consumes. -/
structure Attrs where
  format : List Char
  comments : List (List Char)
  elements : List (List Char × ElemDesc)
deriving DecidableEq, Repr

/-- Parser state: the record under construction plus the current-element
variable elem (None until the first element line is seen). -/
structure PState where
  attrs : Attrs
  lastElem : Option (List Char)
deriving DecidableEq, Repr

/-- Initial parser state: format "", comments [], elements {}. -/
def initPState : PState := ⟨⟨[], [], []⟩, none⟩

/-- The line loop of parse_ply_header. -/
def parseLines : List (List Char) → PState → Except PyErr Attrs
  | [], st => .ok st.attrs
  | l :: ls, st =>
    match words l with
    | [] => .error .valueError
    | tok :: rest =>
      if tok = str "format" then
        parseLines ls { st with attrs := { st.attrs with format := unwords rest } }
      else if tok = str "comment" then
        parseLines ls
          { st with attrs := { st.attrs with comments := st.attrs.comments ++ [unwords rest] } }
      else if tok = str "element" then
        match rest with
        | [] => .error .indexError
        | name :: rest2 =>
          match rest2 with
          | [] => .error .indexError
          | sizeTok :: _ =>
            match parsePyInt sizeTok with
            | none => .error .valueError
            | some n =>
              parseLines ls
                ⟨{ st.attrs with elements := dictSet st.attrs.elements name ⟨n, []⟩ }, some name⟩
      else if tok = str "property" then
        match st.lastElem with
        | none => .error .stateError
        | some e =>
          match dictGet st.attrs.elements e with
          | none => .error .stateError
          | some d =>
            parseLines ls
              { st with attrs :=
                  { st.attrs with
                    elements := dictSet st.attrs.elements e ⟨d.size, d.props ++ [rest]⟩ } }
      else if tok = str "end_header" then .ok st.attrs
      else parseLines ls st

/-- parse_ply_header: the first line must start with "ply" (an empty stream
reads an empty first line), then the line loop runs on the remaining lines. -/
def parsePlyHeader (lines : List (List Char)) : Except PyErr Attrs :=
  match lines with
  | [] => .error .formatError
  | l0 :: ls => if startsWith l0 (str "ply") then parseLines ls initPState else .error .formatError

/-- Comment lines emitted by attrs_to_ply_header. -/
def commentLines (cs : List (List Char)) : List (List Char) :=
  cs.map (fun c => str "comment " ++ c)

/-- Element section emitted by attrs_to_ply_header for one element. -/
def elemLines (e : List Char × ElemDesc) : List (List Char) :=
  (str "element " ++ e.1 ++ ' ' :: intToChars e.2.size)
    :: e.2.props.map (fun p => str "property " ++ unwords p)

/-- attrs_to_ply_header, as the list of lines of the produced text. -/
def attrsToPlyHeader (a : Attrs) : List (List Char) :=
  str "ply" :: (str "format " ++ a.format)
    :: (commentLines a.comments ++ (a.elements.map elemLines).flatten ++ [str "end_header"])

/-- A token as produced by whitespace splitting: nonempty and whitespace-free. -/
def WFTok (t : List Char) : Prop := t ≠ [] ∧ ∀ c ∈ t, pyIsSpace c = false

/-- A phrase that survives split-then-rejoin: single interior spaces, no other
whitespace, no leading or trailing space (the empty phrase qualifies). -/
def WFPhrase (s : List Char) : Prop := unwords (words s) = s

instance : DecidablePred WFTok := fun t => by
  unfold WFTok; infer_instance

instance : DecidablePred WFPhrase := fun s => by
  unfold WFPhrase; infer_instance

/-- A header record in the codec's canonical form: format and comments are
canonically spaced phrases, element names are tokens and pairwise distinct,
and every property entry is a list of tokens. -/
def WFAttrs (a : Attrs) : Prop :=
  WFPhrase a.format ∧
  (∀ c ∈ a.comments, WFPhrase c) ∧
  (a.elements.map Prod.fst).Nodup ∧
  ∀ e ∈ a.elements, WFTok e.1 ∧ ∀ p ∈ e.2.props, ∀ t ∈ p, WFTok t

instance : DecidablePred WFAttrs := fun a => by
  unfold WFAttrs; infer_instance

/-! ## Mesh and array-hierarchy data model -/

/-- The ten numpy dtypes of the source's type_name_table. -/
inductive Dtype where
  | int8 | int16 | int32 | int64 | uint8 | uint16 | uint32 | uint64 | float32 | float64
deriving DecidableEq, Repr

/-- type_name_table of header_from_mesh (numpy dtype to PLY scalar type name). -/
def typeNameTable : Dtype → List Char
  | .int8 => str "int8"
  | .int16 => str "int16"
  | .int32 => str "int32"
  | .int64 => str "int64"
  | .uint8 => str "uint8"
  | .uint16 => str "uint16"
  | .uint32 => str "uint32"
  | .uint64 => str "uint64"
  | .float32 => str "float"
  | .float64 => str "double"

/-- External collaborator (meshio numpy_to_ply_dtype), modelled per the spec's
type vocabulary as a total map on the supported dtypes; the claims never
depend on the exact names it yields. -/
def numpyToPlyDtype : Dtype → List Char
  | .int8 => str "int8"
  | .int16 => str "int16"
  | .int32 => str "int32"
  | .int64 => str "int64"
  | .uint8 => str "uint8"
  | .uint16 => str "uint16"
  | .uint32 => str "uint32"
  | .uint64 => str "uint64"
  | .float32 => str "float32"
  | .float64 => str "double"

/-- External collaborator (meshio cell_type_from_count): 3 maps to triangle,
4 to quad, other arities to a generic tag, per the spec's description. -/
def cellTypeFromCount : Nat → List Char
  | 1 => str "vertex"
  | 2 => str "line"
  | 3 => str "triangle"
  | 4 => str "quad"
  | _ => str "polygon"

/-- A 2-D numpy array with explicit dtype and shape (the shape fields mirror
numpy's metadata; rectangularity is a hypothesis of the theorems). -/
structure Mat where
  dtype : Dtype
  nrows : Nat
  ncols : Nat
  rows : List (List Int)
deriving DecidableEq, Repr

/-- A numpy array stored in the hierarchy: 1-D or 2-D. -/
inductive ZVal where
  | a1 : Dtype → List Int → ZVal
  | a2 : Dtype → List (List Int) → ZVal
deriving DecidableEq, Repr

/-- A meshio Mesh: points matrix, point_data dict, cell blocks in order,
cell_data dict mapping a name to one value array per block. -/
structure Mesh where
  points : Mat
  point_data : List (List Char × ZVal)
  cells : List (List Char × Mat)
  cell_data : List (List Char × List ZVal)
deriving DecidableEq, Repr

/-- Warnings emitted by header_from_mesh (warnings.warn calls). -/
inductive Warning where
  | multidimSkip : List Char → Warning
  | downcast64 : Warning
deriving DecidableEq, Repr

/-- A zarr sub-group holding named arrays. -/
structure ZSubGroup where
  arrays : List (List Char × ZVal)
deriving DecidableEq, Repr

/-- The root zarr group: attribute record (none until written) and named
child groups in creation order. -/
structure ZGroup where
  attrs : Option Attrs
  children : List (List Char × ZSubGroup)
deriving DecidableEq, Repr

/-- A freshly created empty container. -/
def freshGroup : ZGroup := ⟨none, []⟩

/-- The coordinate axis names "x", "y", "z". -/
def coordNames : List (List Char) := [str "x", str "y", str "z"]

/-- Rectangularity of a Mat: the shape metadata matches the rows. -/
def RectMat (m : Mat) : Prop :=
  m.rows.length = m.nrows ∧ ∀ r ∈ m.rows, r.length = m.ncols

instance : DecidablePred RectMat := fun m => by
  unfold RectMat; infer_instance

/-! ## header_from_mesh -/

/-- Total face count: sum of cellblock.data.shape[0] over mesh.cells. -/
def numCells (m : Mesh) : Nat := (m.cells.map (fun c => c.2.nrows)).sum

/-- numpy astype(int32): values wrap into the signed 32-bit range. -/
def castInt32 (v : Int) : Int := (v + 2 ^ 31) % 2 ^ 32 - 2 ^ 31

/-- data.astype(np.int32) on a block. -/
def downMat (m : Mat) : Mat :=
  ⟨.int32, m.nrows, m.ncols, m.rows.map (fun r => r.map castInt32)⟩

/-- The downcast loop: each block whose dtype is int64 is replaced by a
CellBlock with the same type tag and int32 data; other blocks are untouched. -/
def downCells (cells : List (List Char × Mat)) : List (List Char × Mat) :=
  cells.map (fun c => if c.2.dtype = Dtype.int64 then (c.1, downMat c.2) else c)

/-- The dtype-homogeneity loop: cell_dtype starts as None, is set from the
first block, and any later mismatch raises IOError. -/
def checkCellDtype : List (List Char × Mat) → Option Dtype → Except PyErr (Option Dtype)
  | [], acc => .ok acc
  | (_, m) :: rest, none => checkCellDtype rest (some m.dtype)
  | (_, m) :: rest, some d =>
    if m.dtype = d then checkCellDtype rest (some d) else .error .ioError

/-- The point_data loop of header_from_mesh: multidimensional values are
skipped with a warning, 1-D values yield a scalar property line. -/
def pdProps : List (List Char × ZVal) → List (List Char) × List Warning
  | [] => ([], [])
  | (k, v) :: rest =>
    let lw := pdProps rest
    match v with
    | .a2 _ _ => (lw.1, .multidimSkip k :: lw.2)
    | .a1 dt _ => ((str "property " ++ typeNameTable dt ++ ' ' :: k) :: lw.1, lw.2)

/-- The cell_data loop of header_from_mesh.  The source iterates
"for key, vals in mesh.cell_data:", i.e. over the dict's KEYS, unpacking each
key string into (key, vals): a key of length 2 unpacks into two characters and
then numpy_to_ply_dtype[np.asarray(single_character).dtype] raises KeyError (a
numpy string dtype is not in the table); any other key length fails the
unpacking itself with ValueError.  So a non-empty cell_data always faults here. -/
def cellDataHeaderProps : List (List Char × List ZVal) → Except PyErr (List (List Char))
  | [] => .ok []
  | (name, _) :: _ =>
    if name.length = 2 then .error .keyError else .error .valueError

/-- header_from_mesh: derives the header text (as lines), the warnings, and
the mesh as mutated by the in-place int64 downcast.  The timestamp of the
synthetic comment is passed in as now (datetime.now() is external input). -/
def headerFromMesh (mesh : Mesh) (now : List Char) :
    Except PyErr (List (List Char) × List Warning × Mesh) :=
  if mesh.points.ncols > 3 then .error .indexError
  else
    let pre := [str "ply", str "format ascii 1.0",
      str "comment Created by ply-zarr v0.0.1, " ++ now,
      str "element vertex " ++ natToChars mesh.points.nrows]
    let coordLs := (coordNames.take mesh.points.ncols).map
      (fun c => str "property " ++ typeNameTable mesh.points.dtype ++ ' ' :: c)
    let pdlw := pdProps mesh.point_data
    let n := numCells mesh
    if n = 0 then
      .ok (pre ++ coordLs ++ pdlw.1 ++ [str "end_header"], pdlw.2, mesh)
    else
      let hasCast := mesh.cells.any (fun c => c.2.dtype = Dtype.int64)
      let cells2 := downCells mesh.cells
      let warns := pdlw.2 ++ (if hasCast then [Warning.downcast64] else [])
      match checkCellDtype cells2 none with
      | .error e => .error e
      | .ok dtOpt =>
        let listLs : List (List Char) :=
          match dtOpt with
          | some dt => [str "property list uint8 " ++ numpyToPlyDtype dt ++ str " vertex_indices"]
          | none => []
        match cellDataHeaderProps mesh.cell_data with
        | .error e => .error e
        | .ok cdLs =>
          .ok (pre ++ coordLs ++ pdlw.1
                ++ (str "element face " ++ natToChars n) :: listLs ++ cdLs
                ++ [str "end_header"],
               warns, { mesh with cells := cells2 })

/-! ## write -/

/-- Column i of the points matrix (mesh.points[:, i]). -/
def sliceCol (rows : List (List Int)) (i : Nat) : List Int :=
  rows.map (fun r => r.getD i 0)

/-- The points sub-group: one array per coordinate axis of "xyz"[:ncols],
then one array per point_data entry (dict-style assignment, so a later entry
with the same name overwrites). -/
def writePointsGrp (mesh : Mesh) : ZSubGroup :=
  ⟨mesh.point_data.foldl (fun acc kv => dictSet acc kv.1 kv.2)
    ((List.range (min mesh.points.ncols 3)).foldl
      (fun acc i =>
        dictSet acc (coordNames.getD i []) (ZVal.a1 mesh.points.dtype (sliceCol mesh.points.rows i)))
      [])⟩

/-- cnt_group[key] = np.array(vals[i]) for each cell_data entry; indexing
vals[i] out of range raises IndexError. -/
def cellArrays : List (List Char × List ZVal) → Nat → Except PyErr (List (List Char × ZVal))
  | [], _ => .ok []
  | (k, vals) :: rest, i =>
    match vals.get? i with
    | none => .error .indexError
    | some v =>
      match cellArrays rest i with
      | .error e => .error e
      | .ok r => .ok ((k, v) :: r)

/-- The cells loop of write: for the i-th block, create a sub-group keyed by
the block's row width (create_group raises if the key already exists), store
vertex_indices, then the cell_data arrays for index i. -/
def writeCells (cd : List (List Char × List ZVal)) :
    List (List Char × Mat) → Nat → List (List Char × ZSubGroup) →
    Except PyErr (List (List Char × ZSubGroup))
  | [], _, ch => .ok ch
  | (_, mat) :: rest, i, ch =>
    let key := natToChars mat.ncols
    if (dictGet ch key).isSome then .error .containsGroup
    else
      match cellArrays cd i with
      | .error e => .error e
      | .ok arrs =>
        let base := dictSet ([] : List (List Char × ZVal)) (str "vertex_indices")
          (ZVal.a2 mat.dtype mat.rows)
        writeCells cd rest (i + 1)
          (ch ++ [(key, ⟨arrs.foldl (fun a kv => dictSet a kv.1 kv.2) base⟩)])

/-- write: derive the header from the mesh (mutating it), parse the header
text into the attribute record, store it as group metadata, create the points
sub-group, then one sub-group per cell block. -/
def write (g : ZGroup) (mesh : Mesh) (now : List Char) :
    Except PyErr (ZGroup × List Warning × Mesh) :=
  match headerFromMesh mesh now with
  | .error e => .error e
  | .ok (lines, warns, mesh2) =>
    match parsePlyHeader lines with
    | .error e => .error e
    | .ok attrs =>
      if (dictGet g.children (str "points")).isSome then .error .containsGroup
      else
        match writeCells mesh2.cell_data mesh2.cells 0
            (g.children ++ [(str "points", writePointsGrp mesh2)]) with
        | .error e => .error e
        | .ok ch => .ok (⟨some attrs, ch⟩, warns, mesh2)

/-! ## read -/

/-- p[-1] for each property tuple; an empty tuple raises IndexError. -/
def propLasts : List (List (List Char)) → Except PyErr (List (List Char))
  | [] => .ok []
  | p :: ps =>
    match p.getLast? with
    | none => .error .indexError
    | some t =>
      match propLasts ps with
      | .error e => .error e
      | .ok r => .ok (t :: r)

/-- group.points[c] for each coordinate name: a missing array raises KeyError;
a stored 2-D array makes np.vstack fail on shape (the writer never stores 2-D
coordinate arrays, so this branch only calibrates error behaviour). -/
def getCoordCols (pg : ZSubGroup) : List (List Char) → Except PyErr (List (Dtype × List Int))
  | [] => .ok []
  | c :: cs =>
    match dictGet pg.arrays c with
    | none => .error .keyError
    | some (.a2 _ _) => .error .valueError
    | some (.a1 dt xs) =>
      match getCoordCols pg cs with
      | .error e => .error e
      | .ok r => .ok ((dt, xs) :: r)

/-- Row i of the transpose, for i < n. -/
def transposeAux : Nat → List (List Int) → List (List Int)
  | 0, _ => []
  | n + 1, cols => cols.map (fun c => c.headD 0) :: transposeAux n (cols.map List.tail)

/-- np.vstack(cols).T: fails on an empty list or ragged lengths, otherwise
yields the row-major point matrix. -/
def vstackT (cols : List (List Int)) : Except PyErr (List (List Int)) :=
  match cols with
  | [] => .error .valueError
  | c :: rest =>
    if rest.all (fun x => x.length = c.length) then .ok (transposeAux c.length cols)
    else .error .valueError

/-- The point_data loop of read: every vertex property name not among the
coordinates is loaded from the points sub-group (dict assignment). -/
def loadPointData (pg : ZSubGroup) (coords : List (List Char)) :
    List (List Char) → List (List Char × ZVal) → Except PyErr (List (List Char × ZVal))
  | [], acc => .ok acc
  | k :: ks, acc =>
    if coords.contains k then loadPointData pg coords ks acc
    else
      match dictGet pg.arrays k with
      | none => .error .keyError
      | some v => loadPointData pg coords ks (dictSet acc k v)

/-- np.array(group[key]["vertex_indices"]) handed to a meshio cell block: a
1-D array cannot form a cell block (modelled as the shape fault). -/
def zvalToMat : ZVal → Except PyErr Mat
  | .a2 dt rows => .ok ⟨dt, rows.length, (rows.headD []).length, rows⟩
  | .a1 _ _ => .error .valueError

/-- The inner cell_data loop of read: for each face property other than
vertex_indices, load the matching array from the bucket and append it. -/
def appendCellData (sub : ZSubGroup) :
    List (List (List Char)) → List (List Char × List ZVal) →
    Except PyErr (List (List Char × List ZVal))
  | [], cd => .ok cd
  | p :: ps, cd =>
    match p.getLast? with
    | none => .error .valueError
    | some prop =>
      if prop = str "vertex_indices" then appendCellData sub ps cd
      else
        match dictGet sub.arrays prop with
        | none => .error .keyError
        | some v => appendCellData sub ps (cdAppend cd prop v)

/-- The key loop of read over the root's child keys in sorted order: numeric
keys denote arity buckets. -/
def readCellsLoop (g : ZGroup) (cellProps : List (List (List Char))) :
    List (List Char) → List (List Char × Mat) → List (List Char × List ZVal) →
    Except PyErr (List (List Char × Mat) × List (List Char × List ZVal))
  | [], cells, cd => .ok (cells, cd)
  | k :: ks, cells, cd =>
    if isNumericStr k then
      match dictGet g.children k with
      | none => .error .keyError
      | some sub =>
        match dictGet sub.arrays (str "vertex_indices") with
        | none => .error .keyError
        | some v =>
          match zvalToMat v with
          | .error e => .error e
          | .ok m =>
            match appendCellData sub cellProps cd with
            | .error e => .error e
            | .ok cd2 =>
              readCellsLoop g cellProps ks
                (cells ++ [(cellTypeFromCount ((parseNatFrom k 0).getD 0), m)]) cd2
    else readCellsLoop g cellProps ks cells cd

/-- Lexicographic comparison of keys by character code. -/
def strLtB : List Char → List Char → Bool
  | [], [] => false
  | [], _ :: _ => true
  | _ :: _, [] => false
  | a :: as, b :: bs => a.toNat < b.toNat || (a = b && strLtB as bs)

/-- Non-strict key order. -/
def strLeB (a b : List Char) : Bool := strLtB a b || a = b

/-- Insertion into a sorted key list. -/
def insertSorted (k : List Char) : List (List Char) → List (List Char)
  | [] => [k]
  | x :: xs => if strLeB k x then k :: x :: xs else x :: insertSorted k xs

/-- group.keys(): zarr enumerates child keys in sorted order. -/
def sortKeys : List (List Char) → List (List Char)
  | [] => []
  | x :: xs => insertSorted x (sortKeys xs)

/-- read: rebuild the mesh from the stored attribute record and arrays.
Every step mirrors one statement of the source, in source order; in
particular the face element is looked up before the key loop runs. -/
def read (g : ZGroup) : Except PyErr Mesh :=
  match g.attrs with
  | none => .error .keyError
  | some attrs =>
    match dictGet attrs.elements (str "vertex") with
    | none => .error .keyError
    | some vd =>
      match propLasts vd.props with
      | .error e => .error e
      | .ok pointProps =>
        let coords := coordNames.filter (fun c => pointProps.contains c)
        match dictGet g.children (str "points") with
        | none => .error .attrError
        | some pg =>
          match getCoordCols pg coords with
          | .error e => .error e
          | .ok cols =>
            match vstackT (cols.map Prod.snd) with
            | .error e => .error e
            | .ok ptRows =>
              let ptsMat : Mat :=
                ⟨(cols.headD (Dtype.float64, [])).1, ptRows.length, coords.length, ptRows⟩
              match loadPointData pg coords pointProps [] with
              | .error e => .error e
              | .ok pdata =>
                match dictGet attrs.elements (str "face") with
                | none => .error .keyError
                | some fd =>
                  match readCellsLoop g fd.props (sortKeys (g.children.map Prod.fst)) [] [] with
                  | .error e => .error e
                  | .ok cellscd => .ok ⟨ptsMat, pdata, cellscd.1, cellscd.2⟩

/-- The dtype a block carries after the 64-bit downcast loop. -/
def downDt (d : Dtype) : Dtype := if d = Dtype.int64 then Dtype.int32 else d

/-- All cell blocks share one index element dtype after the downcast. -/
def SameCellDtype (m : Mesh) : Prop :=
  ∀ c1 ∈ m.cells, ∀ c2 ∈ m.cells, downDt c1.2.dtype = downDt c2.2.dtype

instance : DecidablePred SameCellDtype := fun m => by
  unfold SameCellDtype; infer_instance

/-- The dtype the homogeneity loop ends with: the first block's. -/
def headCellDtype (cells : List (List Char × Mat)) : Option Dtype :=
  match cells with
  | [] => none
  | c :: _ => some c.2.dtype

/-- The property tuples the parser recovers from the point_data property
lines (multidimensional entries contribute none). -/
def pdPropTuples : List (List Char × ZVal) → List (List (List Char))
  | [] => []
  | (k, v) :: rest =>
    match v with
    | .a2 _ _ => pdPropTuples rest
    | .a1 dt _ => (typeNameTable dt :: words k) :: pdPropTuples rest

/-- len(value.shape) of a stored array. -/
def zndim : ZVal → Nat
  | .a1 _ _ => 1
  | .a2 _ _ => 2

/-- The property tuples the parser recovers from the coordinate lines. -/
def coordPropTuples (m : Mesh) : List (List (List Char)) :=
  (coordNames.take m.points.ncols).map (fun c => [typeNameTable m.points.dtype, c])

/-- The vertex element descriptor of a written container's metadata. -/
def vertexElemDesc (m : Mesh) : ElemDesc :=
  ⟨(m.points.nrows : Int), coordPropTuples m ++ pdPropTuples m.point_data⟩

/-- The comment the parser stores for the synthetic provenance line. -/
def genComment (now : List Char) : List Char :=
  unwords (words (str "Created by ply-zarr v0.0.1, " ++ now))

/-- Names of the one-dimensional point_data entries, in order. -/
def pdNames1D : List (List Char × ZVal) → List (List Char)
  | [] => []
  | (k, v) :: rest =>
    match v with
    | .a2 _ _ => pdNames1D rest
    | .a1 _ _ => k :: pdNames1D rest

/-- A concrete timestamp token standing in for datetime.now().isoformat(). -/
def ts0 : List Char := str "2026-01-01T00:00:00"

/-- One triangle plus a cell_data entry whose key has length 1. -/
def cellDataMesh : Mesh :=
  ⟨⟨.float64, 1, 3, [[0, 0, 0]]⟩, [],
   [(str "triangle", ⟨.int32, 1, 3, [[0, 1, 2]]⟩)],
   [(str "q", [ZVal.a1 .float64 [7]])]⟩

/-- One triangle plus a cell_data entry whose key has length 2. -/
def cellDataMesh2 : Mesh :=
  ⟨⟨.float64, 1, 3, [[0, 0, 0]]⟩, [],
   [(str "triangle", ⟨.int32, 1, 3, [[0, 1, 2]]⟩)],
   [(str "qw", [ZVal.a1 .float64 [7]])]⟩

/-- Two zero-row cell blocks with distinct index dtypes. -/
def hetEmptyMesh : Mesh :=
  ⟨⟨.float64, 1, 3, [[0, 0, 0]]⟩, [],
   [(str "triangle", ⟨.int32, 0, 3, []⟩), (str "quad", ⟨.int16, 0, 4, []⟩)],
   []⟩

/-- One int16 triangle block and one int32 quad block, each with faces. -/
def hetFacesMesh : Mesh :=
  ⟨⟨.float64, 1, 3, [[0, 0, 0]]⟩, [],
   [(str "triangle", ⟨.int16, 1, 3, [[0, 1, 2]]⟩), (str "quad", ⟨.int32, 1, 4, [[0, 1, 2, 3]]⟩)],
   []⟩

/-- One homogeneous triangle block, for the no-IOError direction. -/
def c5HomoMesh : Mesh :=
  ⟨⟨.float64, 1, 3, [[0, 0, 0]]⟩, [],
   [(str "triangle", ⟨.int32, 2, 3, [[0, 1, 2], [0, 2, 1]]⟩)], []⟩

/-- A mesh whose single block uses the unsigned 64-bit index dtype. -/
def u64Mesh : Mesh :=
  ⟨⟨.float64, 1, 3, [[0, 0, 0]]⟩, [],
   [(str "triangle", ⟨.uint64, 1, 3, [[0, 1, 2]]⟩)], []⟩

/-- A mesh whose single block uses the signed 64-bit index dtype. -/
def i64Mesh : Mesh :=
  ⟨⟨.float64, 1, 3, [[0, 0, 0]]⟩, [],
   [(str "triangle", ⟨.int64, 1, 3, [[0, 1, 2]]⟩)], []⟩

/-- One point, two triangles and one quad, but heterogeneous index dtypes. -/
def c2HetMesh : Mesh :=
  ⟨⟨.float64, 1, 3, [[0, 0, 0]]⟩, [],
   [(str "triangle", ⟨.int16, 2, 3, [[0, 1, 2], [0, 2, 1]]⟩),
    (str "quad", ⟨.int32, 1, 4, [[0, 1, 2, 3]]⟩)],
   []⟩

/-- Two 3-D points, one scalar point attribute, two triangles and one quad. -/
def c2ExMesh : Mesh :=
  ⟨⟨.float64, 2, 3, [[0, 0, 0], [1, 1, 1]]⟩,
   [(str "quality", ZVal.a1 .float32 [5, 6])],
   [(str "triangle", ⟨.int32, 2, 3, [[0, 1, 2], [0, 2, 1]]⟩),
    (str "quad", ⟨.int32, 1, 4, [[0, 1, 2, 3]]⟩)],
   []⟩

/-- A mesh with a two-dimensional point_data entry. -/
def multidimMesh : Mesh :=
  ⟨⟨.float64, 1, 3, [[0, 0, 0]]⟩,
   [(str "bad", ZVal.a2 .float64 [[1, 2], [3, 4]])],
   [], []⟩

/-- A faceless mesh with one scalar and one multidimensional attribute. -/
def c4ExMesh : Mesh :=
  ⟨⟨.float64, 2, 2, [[0, 1], [2, 3]]⟩,
   [(str "good", ZVal.a1 .int16 [4, 5]), (str "bad2", ZVal.a2 .float32 [[1], [2]])],
   [], []⟩

/-- A single-quad mesh for the face-list-property witness. -/
def c9ExMesh : Mesh :=
  ⟨⟨.float32, 1, 3, [[0, 0, 0]]⟩, [],
   [(str "quad", ⟨.uint16, 1, 4, [[0, 1, 2, 3]]⟩)], []⟩

/-- A faceless mesh for the read-fault witness. -/
def c10ExMesh : Mesh :=
  ⟨⟨.float64, 1, 2, [[7, 8]]⟩,
   [(str "temp", ZVal.a1 .float64 [1])],
   [], []⟩

/-- A well-formed header text: a text in the canonical layout the serializer
produces (format line, then comments, then each element followed by its
properties, single-space token separation, canonical decimal sizes). -/
def WFHeaderText (x : List (List Char)) : Prop :=
  ∃ a, WFAttrs a ∧ x = attrsToPlyHeader a

/-- Example header record for witnesses. -/
def exHeaderAttrs : Attrs :=
  ⟨str "ascii 1.0", [str "made by hand"],
    [(str "vertex", ⟨3, [[str "float", str "x"], [str "float", str "y"]]⟩),
     (str "face", ⟨2, [[str "list", str "uint8", str "int32", str "vertex_indices"]]⟩)]⟩

/-- A record whose comment holds two adjacent spaces: the spec's data model
allows arbitrary comment strings (preserved verbatim), but the parser
tokenizes on whitespace runs and rejoins with single spaces. -/
def badCommentAttrs : Attrs := ⟨str "ascii 1.0", [str "a  b"], []⟩

/-! ## Lemmas: words and unwords -/

theorem wordsAux_cons_space (c : Char) (rest acc : List Char) (h : pyIsSpace c = true) :
    wordsAux (c :: rest) acc
      = if acc.isEmpty then wordsAux rest [] else acc.reverse :: wordsAux rest [] := by
  simp [wordsAux, h]

theorem wordsAux_cons_nonspace (c : Char) (rest acc : List Char) (h : pyIsSpace c = false) :
    wordsAux (c :: rest) acc = wordsAux rest (c :: acc) := by
  simp [wordsAux, h]

theorem wordsAux_append_word (w : List Char) (rest acc : List Char)
    (h : ∀ c ∈ w, pyIsSpace c = false) :
    wordsAux (w ++ rest) acc = wordsAux rest (w.reverse ++ acc) := by
  induction w generalizing acc with
  | nil => simp
  | cons c w ih =>
    rw [List.cons_append, wordsAux_cons_nonspace c _ _ (h c (by simp))]
    rw [ih _ (fun x hx => h x (by simp [hx]))]
    simp

theorem words_word (w : List Char) (hw : WFTok w) : words w = [w] := by
  have h := wordsAux_append_word w [] [] hw.2
  rw [List.append_nil] at h
  rw [words, h, wordsAux]
  simp [hw.1]

theorem words_keyword (kw s : List Char) (hk : WFTok kw) :
    words (kw ++ ' ' :: s) = kw :: words s := by
  rw [words, wordsAux_append_word kw _ [] hk.2,
    wordsAux_cons_space _ _ _ (by decide)]
  simp [hk.1, words]

theorem words_unwords (ts : List (List Char)) (h : ∀ t ∈ ts, WFTok t) :
    words (unwords ts) = ts := by
  induction ts with
  | nil => rfl
  | cons t ts ih =>
    cases ts with
    | nil => exact words_word t (h t (by simp))
    | cons t2 ts2 =>
      rw [show unwords (t :: t2 :: ts2) = t ++ ' ' :: unwords (t2 :: ts2) from rfl]
      rw [words_keyword t _ (h t (by simp))]
      rw [ih (fun x hx => h x (by simp [hx]))]

theorem startsWith_append (p rest : List Char) : startsWith (p ++ rest) p = true := by
  induction p with
  | nil => cases rest <;> rfl
  | cons c cs ih => simp [startsWith, ih]

/-! ## Lemmas: decimal numerals -/

theorem digitVal_digitChar : ∀ d, d < 10 → digitVal (digitChar d) = some d := by decide

theorem digitChar_ne_minus (d : Nat) : digitChar d ≠ '-' := by
  unfold digitChar; split <;> decide

theorem digitChar_not_space (d : Nat) : pyIsSpace (digitChar d) = false := by
  unfold digitChar; split <;> decide

theorem natToCharsAux_mem (f : Nat) : ∀ (n : Nat) (acc : List Char) (c : Char),
    c ∈ natToCharsAux f n acc → (∃ d, c = digitChar d) ∨ c ∈ acc := by
  induction f with
  | zero => intro n acc c h; exact .inr h
  | succ f ih =>
    intro n acc c h
    rw [natToCharsAux] at h
    split at h
    · rcases List.mem_cons.1 h with h | h
      exacts [.inl ⟨n, h⟩, .inr h]
    · rcases ih _ _ _ h with h | h
      · exact .inl h
      · rcases List.mem_cons.1 h with h | h
        exacts [.inl ⟨n % 10, h⟩, .inr h]

theorem natToCharsAux_ne_nil (f : Nat) : ∀ (n : Nat) (acc : List Char),
    acc ≠ [] → natToCharsAux f n acc ≠ [] := by
  induction f with
  | zero => intro n acc h; exact h
  | succ f ih =>
    intro n acc h
    rw [natToCharsAux]
    split
    · simp
    · exact ih _ _ (by simp)

theorem natToChars_ne_nil (n : Nat) : natToChars n ≠ [] := by
  rw [natToChars, natToCharsAux]
  split
  · simp
  · exact natToCharsAux_ne_nil _ _ _ (by simp)

theorem natToChars_digits (n : Nat) (c : Char) (h : c ∈ natToChars n) :
    ∃ d, c = digitChar d := by
  rcases natToCharsAux_mem _ _ _ _ h with h | h
  · exact h
  · simp at h

theorem natToCharsAux_acc (n : Nat) : ∀ (f : Nat) (acc : List Char),
    n < f → natToCharsAux f n acc = natToChars n ++ acc := by
  induction n using Nat.strong_induction_on with
  | _ n ih =>
    intro f acc hf
    match f, hf with
    | f + 1, _ =>
      rw [natToCharsAux]
      by_cases h10 : n < 10
      · rw [if_pos h10, natToChars, natToCharsAux, if_pos h10]
        rfl
      · have hdiv : n / 10 < n := Nat.div_lt_self (by omega) (by omega)
        rw [if_neg h10, ih (n / 10) hdiv f (digitChar (n % 10) :: acc) (by omega)]
        have hsplit : natToChars n = natToChars (n / 10) ++ [digitChar (n % 10)] := by
          rw [natToChars, natToCharsAux, if_neg h10,
            ih (n / 10) hdiv n (digitChar (n % 10) :: []) (by omega)]
        rw [hsplit, List.append_assoc]
        rfl

theorem natToChars_split (n : Nat) (h : 10 ≤ n) :
    natToChars n = natToChars (n / 10) ++ [digitChar (n % 10)] := by
  rw [natToChars, natToCharsAux, if_neg (by omega),
    natToCharsAux_acc (n / 10) n _ (Nat.lt_of_lt_of_le (Nat.div_lt_self (by omega) (by omega)) (by omega))]

theorem parseNatFrom_append (xs ys : List Char) (a : Nat) :
    parseNatFrom (xs ++ ys) a
      = match parseNatFrom xs a with
        | some v => parseNatFrom ys v
        | none => none := by
  induction xs generalizing a with
  | nil => rfl
  | cons c cs ih =>
    rw [List.cons_append]
    cases h : digitVal c with
    | none => simp [parseNatFrom, h]
    | some d => simp [parseNatFrom, h, ih]

theorem parseNatFrom_natToChars (n : Nat) : parseNatFrom (natToChars n) 0 = some n := by
  induction n using Nat.strong_induction_on with
  | _ n ih =>
    by_cases h10 : n < 10
    · rw [natToChars, natToCharsAux, if_pos h10]
      simp [parseNatFrom, digitVal_digitChar n h10]
    · have hdiv : n / 10 < n := Nat.div_lt_self (by omega) (by omega)
      rw [natToChars_split n (by omega), parseNatFrom_append, ih _ hdiv]
      simp [parseNatFrom, digitVal_digitChar (n % 10) (by omega)]
      omega

theorem parsePyInt_natToChars (n : Nat) : parsePyInt (natToChars n) = some (n : Int) := by
  obtain ⟨c, cs, hcons⟩ : ∃ c cs, natToChars n = c :: cs := by
    cases h : natToChars n with
    | nil => exact absurd h (natToChars_ne_nil n)
    | cons c cs => exact ⟨c, cs, rfl⟩
  have hc : c ≠ '-' := by
    obtain ⟨d, rfl⟩ := natToChars_digits n c (by rw [hcons]; simp)
    exact digitChar_ne_minus d
  rw [hcons, parsePyInt, if_neg hc, ← hcons, parseNatFrom_natToChars]
  rfl

theorem parsePyInt_intToChars (i : Int) : parsePyInt (intToChars i) = some i := by
  rw [intToChars]
  by_cases hneg : i < 0
  · rw [if_pos hneg, parsePyInt, if_pos rfl,
      if_neg (by simp [List.isEmpty_iff]; exact natToChars_ne_nil _),
      parseNatFrom_natToChars]
    rw [show ((some i.natAbs).map (fun n => -(n : Int))) = some (-(i.natAbs : Int)) from rfl]
    rw [show (-(i.natAbs : Int)) = i by omega]
  · rw [if_neg hneg, parsePyInt_natToChars]
    congr 1
    omega

theorem natToChars_wftok (n : Nat) : WFTok (natToChars n) := by
  refine ⟨natToChars_ne_nil n, fun c hc => ?_⟩
  obtain ⟨d, rfl⟩ := natToChars_digits n c hc
  exact digitChar_not_space d

theorem intToChars_wftok (i : Int) : WFTok (intToChars i) := by
  rw [intToChars]
  split
  · refine ⟨by simp, fun c hc => ?_⟩
    rcases List.mem_cons.1 hc with h | h
    · rw [h]; decide
    · exact (natToChars_wftok _).2 c h
  · exact natToChars_wftok _

/-! ## Lemmas: dictionaries -/

theorem dictGet_dictSet_self {α : Type} (l : List (List Char × α)) (k : List Char) (v : α) :
    dictGet (dictSet l k v) k = some v := by
  induction l with
  | nil => rw [dictSet, dictGet, if_pos rfl]
  | cons p t ih =>
    by_cases hk : p.1 = k
    · rw [dictSet, if_pos hk, dictGet, if_pos rfl]
    · rw [dictSet, if_neg hk, dictGet, if_neg hk, ih]

theorem dictGet_not_mem {α : Type} (l : List (List Char × α)) (k : List Char)
    (h : k ∉ l.map Prod.fst) : dictGet l k = none := by
  induction l with
  | nil => rfl
  | cons p t ih =>
    rw [List.map_cons, List.mem_cons, not_or] at h
    rw [dictGet, if_neg (fun he => h.1 he.symm), ih h.2]

theorem dictSet_fresh {α : Type} (l : List (List Char × α)) (k : List Char) (v : α)
    (h : k ∉ l.map Prod.fst) : dictSet l k v = l ++ [(k, v)] := by
  induction l with
  | nil => rfl
  | cons p t ih =>
    rw [List.map_cons, List.mem_cons, not_or] at h
    rw [dictSet, if_neg (fun he => h.1 he.symm), ih h.2, List.cons_append]

theorem dictGet_append_right {α : Type} (l1 l2 : List (List Char × α)) (k : List Char)
    (h : k ∉ l1.map Prod.fst) : dictGet (l1 ++ l2) k = dictGet l2 k := by
  induction l1 with
  | nil => rfl
  | cons p t ih =>
    rw [List.map_cons, List.mem_cons, not_or] at h
    rw [List.cons_append, dictGet, if_neg (fun he => h.1 he.symm), ih h.2]

theorem dictGet_last {α : Type} (done : List (List Char × α)) (k : List Char) (d : α)
    (h : k ∉ done.map Prod.fst) : dictGet (done ++ [(k, d)]) k = some d := by
  rw [dictGet_append_right _ _ _ h, dictGet, if_pos rfl]

theorem dictSet_append_last {α : Type} (done : List (List Char × α)) (k : List Char) (d v : α)
    (h : k ∉ done.map Prod.fst) : dictSet (done ++ [(k, d)]) k v = done ++ [(k, v)] := by
  induction done with
  | nil => rw [List.nil_append, List.nil_append, dictSet, if_pos rfl]
  | cons p t ih =>
    rw [List.map_cons, List.mem_cons, not_or] at h
    rw [List.cons_append, dictSet, if_neg (fun he => h.1 he.symm), ih h.2, List.cons_append]

theorem dictGet_isSome_mem {α : Type} (l : List (List Char × α)) (k : List Char) :
    (dictGet l k).isSome = true ↔ k ∈ l.map Prod.fst := by
  induction l with
  | nil =>
    rw [dictGet, List.map_nil]
    exact ⟨fun h => absurd h Bool.false_ne_true, fun h => absurd h (List.not_mem_nil k)⟩
  | cons p t ih =>
    by_cases hk : p.1 = k
    · rw [dictGet, if_pos hk, List.map_cons, hk]
      exact ⟨fun _ => List.mem_cons_self _ _, fun _ => rfl⟩
    · rw [dictGet, if_neg hk, List.map_cons, ih, List.mem_cons]
      exact (or_iff_right (fun he => hk he.symm)).symm

/-! ## Lemmas: the parser line loop -/

theorem parseLines_cons_eq (l : List Char) (ls : List (List Char)) (st : PState) :
    parseLines (l :: ls) st = (match words l with
    | [] => .error .valueError
    | tok :: rest =>
      if tok = str "format" then
        parseLines ls { st with attrs := { st.attrs with format := unwords rest } }
      else if tok = str "comment" then
        parseLines ls
          { st with attrs := { st.attrs with comments := st.attrs.comments ++ [unwords rest] } }
      else if tok = str "element" then
        match rest with
        | [] => .error .indexError
        | name :: rest2 =>
          match rest2 with
          | [] => .error .indexError
          | sizeTok :: _ =>
            match parsePyInt sizeTok with
            | none => .error .valueError
            | some n =>
              parseLines ls
                ⟨{ st.attrs with elements := dictSet st.attrs.elements name ⟨n, []⟩ }, some name⟩
      else if tok = str "property" then
        match st.lastElem with
        | none => .error .stateError
        | some e =>
          match dictGet st.attrs.elements e with
          | none => .error .stateError
          | some d =>
            parseLines ls
              { st with attrs :=
                  { st.attrs with
                    elements := dictSet st.attrs.elements e ⟨d.size, d.props ++ [rest]⟩ } }
      else if tok = str "end_header" then .ok st.attrs
      else parseLines ls st : Except PyErr Attrs) := rfl

theorem parseLines_format (f : List Char) (ls : List (List Char)) (st : PState)
    (hf : WFPhrase f) :
    parseLines ((str "format " ++ f) :: ls) st
      = parseLines ls { st with attrs := { st.attrs with format := f } } := by
  have h : parseLines ((str "format " ++ f) :: ls) st
      = parseLines ls { st with attrs := { st.attrs with format := unwords (words f) } } := rfl
  rw [h, show unwords (words f) = f from hf]

theorem parseLines_comment (c : List Char) (ls : List (List Char)) (st : PState)
    (hc : WFPhrase c) :
    parseLines ((str "comment " ++ c) :: ls) st
      = parseLines ls
          { st with attrs := { st.attrs with comments := st.attrs.comments ++ [c] } } := by
  have h : parseLines ((str "comment " ++ c) :: ls) st
      = parseLines ls
          { st with attrs :=
              { st.attrs with comments := st.attrs.comments ++ [unwords (words c)] } } := rfl
  rw [h, show unwords (words c) = c from hc]

theorem parseLines_end_header (ls : List (List Char)) (st : PState) :
    parseLines (str "end_header" :: ls) st = .ok st.attrs := rfl

theorem parseLines_element (name : List Char) (size : Int) (ls : List (List Char)) (st : PState)
    (hn : WFTok name) :
    parseLines ((str "element " ++ name ++ ' ' :: intToChars size) :: ls) st
      = parseLines ls
          ⟨{ st.attrs with elements := dictSet st.attrs.elements name ⟨size, []⟩ },
            some name⟩ := by
  have hw : words (str "element " ++ name ++ ' ' :: intToChars size)
      = str "element" :: name :: [intToChars size] := by
    rw [show str "element " ++ name ++ ' ' :: intToChars size
        = str "element" ++ ' ' :: (name ++ ' ' :: intToChars size) from rfl]
    rw [words_keyword _ _ (by decide), words_keyword _ _ hn, words_word _ (intToChars_wftok size)]
  rw [parseLines_cons_eq, hw]
  simp +decide [parsePyInt_intToChars]

theorem parseLines_property_raw (s : List Char) (ls : List (List Char)) (st : PState)
    (ename : List Char) (d : ElemDesc)
    (he : st.lastElem = some ename)
    (hd : dictGet st.attrs.elements ename = some d) :
    parseLines ((str "property " ++ s) :: ls) st
      = parseLines ls
          { st with attrs :=
              { st.attrs with
                elements := dictSet st.attrs.elements ename ⟨d.size, d.props ++ [words s]⟩ } } := by
  have hw : words (str "property " ++ s) = str "property" :: words s := rfl
  rw [parseLines_cons_eq, hw]
  simp +decide [he, hd]

theorem parseLines_property (p : List (List Char)) (ls : List (List Char)) (st : PState)
    (ename : List Char) (d : ElemDesc)
    (he : st.lastElem = some ename)
    (hd : dictGet st.attrs.elements ename = some d)
    (hp : ∀ t ∈ p, WFTok t) :
    parseLines ((str "property " ++ unwords p) :: ls) st
      = parseLines ls
          { st with attrs :=
              { st.attrs with
                elements := dictSet st.attrs.elements ename ⟨d.size, d.props ++ [p]⟩ } } := by
  rw [parseLines_property_raw _ _ _ ename d he hd, words_unwords _ hp]

theorem parseLines_comments (cs : List (List Char)) (rest : List (List Char)) (st : PState)
    (h : ∀ c ∈ cs, WFPhrase c) :
    parseLines (commentLines cs ++ rest) st
      = parseLines rest
          { st with attrs := { st.attrs with comments := st.attrs.comments ++ cs } } := by
  induction cs generalizing st with
  | nil => simp [commentLines]
  | cons c cs ih =>
    rw [commentLines, List.map_cons, List.cons_append,
      parseLines_comment _ _ _ (h c (by simp))]
    rw [show (commentLines cs : List (List Char))
        = cs.map (fun c => str "comment " ++ c) from rfl] at ih
    rw [ih _ (fun x hx => h x (by simp [hx]))]
    simp

theorem parseLines_props (ps : List (List (List Char))) (rest : List (List Char))
    (fmt : List Char) (cms : List (List Char)) (done : List (List Char × ElemDesc))
    (ename : List Char) (d : ElemDesc)
    (hkey : ename ∉ done.map Prod.fst)
    (hp : ∀ p ∈ ps, ∀ t ∈ p, WFTok t) :
    parseLines (ps.map (fun p => str "property " ++ unwords p) ++ rest)
        ⟨⟨fmt, cms, done ++ [(ename, d)]⟩, some ename⟩
      = parseLines rest ⟨⟨fmt, cms, done ++ [(ename, ⟨d.size, d.props ++ ps⟩)]⟩, some ename⟩ := by
  induction ps generalizing d with
  | nil => simp
  | cons p ps ih =>
    rw [List.map_cons, List.cons_append,
      parseLines_property p _ _ ename d rfl (dictGet_last done ename d hkey)
        (hp p (by simp))]
    have hset := dictSet_append_last done ename d ⟨d.size, d.props ++ [p]⟩ hkey
    simp only [hset]
    rw [ih ⟨d.size, d.props ++ [p]⟩ (fun x hx => hp x (by simp [hx]))]
    simp

theorem parseLines_elemSection (e : List Char × ElemDesc) (rest : List (List Char))
    (fmt : List Char) (cms : List (List Char)) (done : List (List Char × ElemDesc))
    (le : Option (List Char))
    (hkey : e.1 ∉ done.map Prod.fst)
    (hwf : WFTok e.1 ∧ ∀ p ∈ e.2.props, ∀ t ∈ p, WFTok t) :
    parseLines (elemLines e ++ rest) ⟨⟨fmt, cms, done⟩, le⟩
      = parseLines rest ⟨⟨fmt, cms, done ++ [e]⟩, some e.1⟩ := by
  rcases e with ⟨ename, d⟩
  rw [elemLines, List.cons_append,
    parseLines_element ename d.size _ _ hwf.1]
  have hset := dictSet_fresh done ename ⟨d.size, []⟩ hkey
  simp only [hset]
  rw [parseLines_props d.props rest fmt cms done ename ⟨d.size, []⟩ hkey hwf.2]
  simp

theorem parseLines_elems (es : List (List Char × ElemDesc))
    (fmt : List Char) (cms : List (List Char)) (done : List (List Char × ElemDesc))
    (le : Option (List Char))
    (hdisj : ∀ e ∈ es, e.1 ∉ done.map Prod.fst)
    (hnodup : (es.map Prod.fst).Nodup)
    (hwf : ∀ e ∈ es, WFTok e.1 ∧ ∀ p ∈ e.2.props, ∀ t ∈ p, WFTok t) :
    parseLines ((es.map elemLines).flatten ++ [str "end_header"]) ⟨⟨fmt, cms, done⟩, le⟩
      = .ok ⟨fmt, cms, done ++ es⟩ := by
  induction es generalizing done le with
  | nil => simp [parseLines_end_header]
  | cons e es ih =>
    rw [List.map_cons, List.flatten_cons, List.append_assoc,
      parseLines_elemSection e _ fmt cms done le (hdisj e (by simp)) (hwf e (by simp))]
    rw [List.map_cons, List.nodup_cons] at hnodup
    have hdisj2 : ∀ e2 ∈ es, e2.1 ∉ (done ++ [e]).map Prod.fst := by
      intro e2 he2
      rw [List.map_append, List.mem_append]
      rintro (h | h)
      · exact hdisj e2 (by simp [he2]) h
      · simp at h
        exact hnodup.1 (h ▸ List.mem_map_of_mem Prod.fst he2)
    rw [ih (done ++ [e]) (some e.1) hdisj2 hnodup.2 (fun x hx => hwf x (by simp [hx]))]
    simp

theorem parsePlyHeader_cons_eq (l0 : List Char) (ls : List (List Char)) :
    parsePlyHeader (l0 :: ls)
      = if startsWith l0 (str "ply") then parseLines ls initPState
        else .error .formatError := rfl

/-- Core round-trip: parsing the serialized form of a canonical record
recovers the record exactly. -/
theorem parsePlyHeader_serialize (a : Attrs) (h : WFAttrs a) :
    parsePlyHeader (attrsToPlyHeader a) = .ok a := by
  obtain ⟨hf, hc, hnodup, hwf⟩ := h
  rw [attrsToPlyHeader, parsePlyHeader_cons_eq, if_pos (by decide)]
  rw [parseLines_format _ _ _ hf, List.append_assoc]
  rw [parseLines_comments _ _ _ hc]
  dsimp only [initPState]
  simp only [List.nil_append]
  rw [parseLines_elems a.elements a.format a.comments [] none (by simp) hnodup
    (fun e he => hwf e he)]
  simp

/-- The line loop only raises the NameError (StateError), ValueError or
IndexError families: in particular never the FormatError of the magic check
and never the writer's IOError. -/
theorem parseLines_error_classes (ls : List (List Char)) : ∀ (st : PState) (e : PyErr),
    parseLines ls st = .error e →
    e = .stateError ∨ e = .valueError ∨ e = .indexError := by
  induction ls with
  | nil =>
    intro st e h
    exact absurd h (by simp [parseLines])
  | cons l ls ih =>
    intro st e h
    rw [parseLines_cons_eq] at h
    rcases hwords : words l with _ | ⟨tok, rest⟩ <;> rw [hwords] at h
    · simp at h
      exact .inr (.inl h.symm)
    · dsimp only at h
      split_ifs at h <;> repeat' split at h
      all_goals
        first
        | exact ih _ _ h
        | (simp only [Except.error.injEq] at h; subst h; decide)

theorem parseLines_ne_formatError (ls : List (List Char)) (st : PState) :
    parseLines ls st ≠ .error .formatError := by
  intro h
  rcases parseLines_error_classes ls st _ h with h2 | h2 | h2 <;> exact absurd h2 (by decide)

/-- C1 (amended): the codec round trips in both directions on canonical data:
parse(serialize(record)) = record for every record whose strings are in the
codec's canonical form (tokens nonempty and whitespace-free, comments and
format single-spaced, element names distinct), and serialize(parse(x)) = x
for every header text in the serializer's canonical layout. -/
theorem c1_header_codec_roundtrip :
    (∀ a : Attrs, WFAttrs a → parsePlyHeader (attrsToPlyHeader a) = Except.ok a) ∧
    (∀ x : List (List Char), WFHeaderText x →
      ∃ a : Attrs, parsePlyHeader x = Except.ok a ∧ attrsToPlyHeader a = x) := by
  refine ⟨fun a ha => parsePlyHeader_serialize a ha, fun x hx => ?_⟩
  obtain ⟨a, ha, rfl⟩ := hx
  exact ⟨a, parsePlyHeader_serialize a ha, rfl⟩

/-- C1 counterexample: a record whose comment holds two adjacent spaces (the
data model stores comments verbatim) does not survive parse(serialize(-)):
the parser tokenizes the comment and rejoins it with single spaces. -/
theorem c1_counterexample :
    parsePlyHeader (attrsToPlyHeader badCommentAttrs) ≠ Except.ok badCommentAttrs := by
  decide

/-- Witness for c1_header_codec_roundtrip at a concrete two-element record. -/
theorem c1_witness :
    WFAttrs exHeaderAttrs ∧
      parsePlyHeader (attrsToPlyHeader exHeaderAttrs) = Except.ok exHeaderAttrs :=
  ⟨by decide, c1_header_codec_roundtrip.1 exHeaderAttrs (by decide)⟩

/-- C7: parse_ply_header fails with the FormatError ("Not a ply file") if and
only if the first line of the stream (the empty string for an empty stream)
does not start with the literal characters ply; parsing touches no container. -/
theorem c7_format_error_iff (lines : List (List Char)) :
    parsePlyHeader lines = Except.error PyErr.formatError
      ↔ startsWith (lines.headD []) (str "ply") = false := by
  cases lines with
  | nil =>
    simp [parsePlyHeader]
    decide
  | cons l0 ls =>
    rw [parsePlyHeader_cons_eq]
    by_cases h : startsWith l0 (str "ply")
    · rw [if_pos h]
      simp [h, parseLines_ne_formatError]
    · rw [if_neg h]
      simp [h]

/-- Witness for c7_format_error_iff at the spec's concrete test stream. -/
theorem c7_witness :
    parsePlyHeader [str "not-ply", str "end_header"] = Except.error PyErr.formatError :=
  (c7_format_error_iff [str "not-ply", str "end_header"]).mpr (by decide)

/-- While only format, comment, property or unrecognised lines have been
scanned (no element line, no end_header) and the current-element variable is
still unset, reaching a property line faults with the StateError. -/
theorem parseLines_property_before_element (pre : List (List Char)) :
    ∀ (st : PState) (lp : List Char) (tail : List (List Char)),
    st.lastElem = none →
    (∀ l ∈ pre, ∃ tok rest, words l = tok :: rest ∧
      tok ≠ str "element" ∧ tok ≠ str "end_header") →
    (∃ rest, words lp = str "property" :: rest) →
    parseLines (pre ++ lp :: tail) st = .error .stateError := by
  induction pre with
  | nil =>
    intro st lp tail hle hpre hlp
    obtain ⟨rest, hw⟩ := hlp
    rw [List.nil_append, parseLines_cons_eq, hw]
    simp +decide [hle]
  | cons l pre ih =>
    intro st lp tail hle hpre hlp
    obtain ⟨tok, rest, hw, hne, hnh⟩ := hpre l (by simp)
    rw [List.cons_append, parseLines_cons_eq, hw]
    dsimp only
    by_cases h1 : tok = str "format"
    · rw [if_pos h1]
      exact ih _ _ _ hle (fun x hx => hpre x (by simp [hx])) hlp
    · rw [if_neg h1]
      by_cases h2 : tok = str "comment"
      · rw [if_pos h2]
        exact ih _ _ _ hle (fun x hx => hpre x (by simp [hx])) hlp
      · rw [if_neg h2, if_neg hne]
        by_cases h4 : tok = str "property"
        · rw [if_pos h4, hle]
        · rw [if_neg h4, if_neg hnh]
          exact ih _ _ _ hle (fun x hx => hpre x (by simp [hx])) hlp

/-- C8: for every header text whose first line starts with ply and in which
the parser encounters a property line before any element line (only format,
comment, property or unrecognised lines precede it, none being element or
end_header), parse fails with the StateError (the undefined current-element
NameError) instead of returning a record. -/
theorem c8_property_before_element (l0 : List Char) (pre tail : List (List Char))
    (lp : List Char)
    (h0 : startsWith l0 (str "ply") = true)
    (hpre : ∀ l ∈ pre, ∃ tok rest, words l = tok :: rest ∧
      tok ≠ str "element" ∧ tok ≠ str "end_header")
    (hlp : ∃ rest, words lp = str "property" :: rest) :
    parsePlyHeader (l0 :: (pre ++ lp :: tail)) = Except.error PyErr.stateError := by
  rw [parsePlyHeader_cons_eq, if_pos h0]
  exact parseLines_property_before_element pre initPState lp tail rfl hpre hlp

/-- Witness for c8_property_before_element at the spec's concrete test text. -/
theorem c8_witness :
    parsePlyHeader [str "ply", str "comment c", str "property float x", str "end_header"]
      = Except.error PyErr.stateError :=
  c8_property_before_element (str "ply") [str "comment c"] [str "end_header"]
    (str "property float x") (by decide)
    (fun l hl => by
      rw [List.mem_singleton] at hl
      exact ⟨str "comment", [str "c"], by rw [hl]; decide⟩)
    ⟨[str "float", str "x"], by decide⟩

/-! ## Lemmas: header_from_mesh -/

theorem typeNameTable_wftok (dt : Dtype) : WFTok (typeNameTable dt) := by
  cases dt <;> decide

theorem numpyToPlyDtype_wftok (dt : Dtype) : WFTok (numpyToPlyDtype dt) := by
  cases dt <;> decide

theorem downCells_cons (c : List Char × Mat) (rest : List (List Char × Mat)) :
    downCells (c :: rest)
      = (if c.2.dtype = Dtype.int64 then (c.1, downMat c.2) else c) :: downCells rest := rfl

theorem dtype_downBlock (c : List Char × Mat) :
    ((if c.2.dtype = Dtype.int64 then (c.1, downMat c.2) else c) : List Char × Mat).2.dtype
      = downDt c.2.dtype := by
  rw [downDt]
  split_ifs with h
  · rfl
  · rfl

theorem checkCellDtype_some (cells : List (List Char × Mat)) : ∀ d : Dtype,
    checkCellDtype cells (some d)
      = if ∀ c ∈ cells, c.2.dtype = d then .ok (some d) else .error .ioError := by
  induction cells with
  | nil => intro d; simp [checkCellDtype]
  | cons c rest ih =>
    intro d
    rcases c with ⟨nm, mat⟩
    rw [checkCellDtype]
    by_cases h : mat.dtype = d
    · rw [if_pos h, ih d]
      by_cases hall : ∀ c ∈ rest, c.2.dtype = d
      · rw [if_pos hall, if_pos (by
          intro c hc
          rcases List.mem_cons.1 hc with hc | hc
          · rw [hc]; exact h
          · exact hall c hc)]
      · rw [if_neg hall, if_neg (by
          intro hcon
          exact hall (fun c hc => hcon c (List.mem_cons_of_mem _ hc)))]
    · rw [if_neg h, if_neg (by
        intro hcon
        exact h (hcon (nm, mat) (List.mem_cons_self _ _)))]

theorem checkCellDtype_none_cons (c : List Char × Mat) (rest : List (List Char × Mat)) :
    checkCellDtype (c :: rest) none = checkCellDtype rest (some c.2.dtype) := by
  rcases c with ⟨nm, mat⟩
  rfl

theorem mem_downCells (cells : List (List Char × Mat)) (x : List Char × Mat) :
    x ∈ downCells cells ↔ ∃ c ∈ cells, x = if c.2.dtype = Dtype.int64 then (c.1, downMat c.2) else c := by
  rw [downCells, List.mem_map]
  constructor
  · rintro ⟨c, hc, rfl⟩
    exact ⟨c, hc, rfl⟩
  · rintro ⟨c, hc, rfl⟩
    exact ⟨c, hc, rfl⟩

theorem allSame_cons_iff (c : List Char × Mat) (rest : List (List Char × Mat)) :
    (∀ c1 ∈ c :: rest, ∀ c2 ∈ c :: rest, downDt c1.2.dtype = downDt c2.2.dtype)
      ↔ ∀ x ∈ rest, downDt x.2.dtype = downDt c.2.dtype := by
  constructor
  · intro h x hx
    exact h x (List.mem_cons_of_mem _ hx) c (List.mem_cons_self _ _)
  · intro h c1 h1 c2 h2
    rcases List.mem_cons.1 h1 with h1 | h1 <;> rcases List.mem_cons.1 h2 with h2 | h2
    · rw [h1, h2]
    · rw [h1, (h c2 h2)]
    · rw [h2, (h c1 h1)]
    · rw [h c1 h1, h c2 h2]

theorem checkCellDtype_downCells (cells : List (List Char × Mat)) :
    checkCellDtype (downCells cells) none
      = if ∀ c1 ∈ cells, ∀ c2 ∈ cells, downDt c1.2.dtype = downDt c2.2.dtype
        then .ok (headCellDtype (downCells cells)) else .error .ioError := by
  cases cells with
  | nil => simp [downCells, checkCellDtype, headCellDtype]
  | cons c rest =>
    rw [downCells_cons, checkCellDtype_none_cons, checkCellDtype_some, dtype_downBlock]
    have hmem : (∀ x ∈ downCells rest, x.2.dtype = downDt c.2.dtype)
        ↔ ∀ x ∈ rest, downDt x.2.dtype = downDt c.2.dtype := by
      constructor
      · intro h x hx
        have := h _ ((mem_downCells rest _).2 ⟨x, hx, rfl⟩)
        rw [dtype_downBlock] at this
        exact this
      · intro h x hx
        obtain ⟨c0, hc0, rfl⟩ := (mem_downCells rest x).1 hx
        rw [dtype_downBlock]
        exact h c0 hc0
    by_cases hall : ∀ x ∈ rest, downDt x.2.dtype = downDt c.2.dtype
    · rw [if_pos (hmem.2 hall), if_pos ((allSame_cons_iff c rest).2 hall)]
      rw [headCellDtype, dtype_downBlock]
    · rw [if_neg (fun h => hall (hmem.1 h)),
        if_neg (fun h => hall ((allSame_cons_iff c rest).1 h))]

theorem checkCellDtype_error (cells : List (List Char × Mat)) : ∀ (acc : Option Dtype) (e : PyErr),
    checkCellDtype cells acc = .error e → e = .ioError := by
  induction cells with
  | nil =>
    intro acc e h
    simp [checkCellDtype] at h
  | cons c rest ih =>
    intro acc e h
    rcases c with ⟨nm, mat⟩
    cases acc with
    | none =>
      rw [checkCellDtype] at h
      exact ih _ _ h
    | some d =>
      rw [checkCellDtype] at h
      split_ifs at h
      · exact ih _ _ h
      · simp at h
        exact h.symm

theorem cellDataHeaderProps_error (cd : List (List Char × List ZVal)) (e : PyErr)
    (h : cellDataHeaderProps cd = .error e) : e = .valueError ∨ e = .keyError := by
  cases cd with
  | nil => simp [cellDataHeaderProps] at h
  | cons p rest =>
    rcases p with ⟨name, vals⟩
    rw [cellDataHeaderProps] at h
    split_ifs at h
    · simp at h
      exact .inr h.symm
    · simp at h
      exact .inl h.symm

theorem cellDataHeaderProps_nonempty (cd : List (List Char × List ZVal)) (h : cd ≠ []) :
    ∃ e, cellDataHeaderProps cd = .error e := by
  cases cd with
  | nil => exact absurd rfl h
  | cons p rest =>
    rcases p with ⟨name, vals⟩
    rw [cellDataHeaderProps]
    split_ifs
    · exact ⟨_, rfl⟩
    · exact ⟨_, rfl⟩

/-- C3 (evaluation at the failing inputs): writing a mesh with one face and a
non-empty cell_data faults during header derivation.  The source iterates
"for key, vals in mesh.cell_data:", which walks the dict's keys and unpacks
each key string: a one-character key fails the unpacking (ValueError) and a
two-character key reaches numpy_to_ply_dtype with a string dtype (KeyError),
so no cell_data array is ever written. -/
theorem c3_cell_data_write_crashes :
    write freshGroup cellDataMesh ts0 = Except.error PyErr.valueError ∧
      write freshGroup cellDataMesh2 ts0 = Except.error PyErr.keyError := by
  decide

theorem dictGet_append_left {α : Type} (l1 l2 : List (List Char × α)) (k : List Char)
    (h : (dictGet l1 k).isSome = true) : dictGet (l1 ++ l2) k = dictGet l1 k := by
  induction l1 with
  | nil => simp [dictGet] at h
  | cons p t ih =>
    by_cases hk : p.1 = k
    · rw [List.cons_append, dictGet, if_pos hk, dictGet, if_pos hk]
    · rw [dictGet, if_neg hk] at h
      rw [List.cons_append, dictGet, if_neg hk, dictGet, if_neg hk, ih h]

theorem cellArrays_error (cd : List (List Char × List ZVal)) : ∀ (i : Nat) (e : PyErr),
    cellArrays cd i = .error e → e = .indexError := by
  induction cd with
  | nil => intro i e h; simp [cellArrays] at h
  | cons p rest ih =>
    intro i e h
    rcases p with ⟨k, vals⟩
    rw [cellArrays] at h
    cases hv : vals.get? i with
    | none =>
      rw [hv] at h
      simp at h
      exact h.symm
    | some v =>
      rw [hv] at h
      cases hr : cellArrays rest i with
      | error e2 =>
        rw [hr] at h
        simp at h
        subst h
        exact ih _ _ hr
      | ok r =>
        rw [hr] at h
        simp at h

theorem writeCells_error (cells : List (List Char × Mat)) :
    ∀ (cd : List (List Char × List ZVal)) (i : Nat) (ch : List (List Char × ZSubGroup)) (e : PyErr),
    writeCells cd cells i ch = .error e → e = .containsGroup ∨ e = .indexError := by
  induction cells with
  | nil => intro cd i ch e h; simp [writeCells] at h
  | cons c rest ih =>
    intro cd i ch e h
    rcases c with ⟨nm, mat⟩
    rw [writeCells] at h
    split_ifs at h
    · simp at h
      exact .inl h.symm
    · cases ha : cellArrays cd i with
      | error e2 =>
        rw [ha] at h
        simp at h
        subst h
        exact .inr (cellArrays_error cd i _ ha)
      | ok arrs =>
        rw [ha] at h
        exact ih _ _ _ _ h

theorem parsePlyHeader_error (lines : List (List Char)) (e : PyErr)
    (h : parsePlyHeader lines = .error e) :
    e = .formatError ∨ e = .stateError ∨ e = .valueError ∨ e = .indexError := by
  cases lines with
  | nil =>
    simp [parsePlyHeader] at h
    exact .inl h.symm
  | cons l0 ls =>
    rw [parsePlyHeader_cons_eq] at h
    split_ifs at h
    · exact .inr (parseLines_error_classes ls _ _ h)
    · simp at h
      exact .inl h.symm

theorem write_error_ioError (g : ZGroup) (m : Mesh) (now : List Char)
    (h : write g m now = Except.error PyErr.ioError) :
    headerFromMesh m now = Except.error PyErr.ioError := by
  rw [write] at h
  cases hh : headerFromMesh m now with
  | error e =>
    rw [hh] at h
    dsimp only at h
    injection h with h2
    rw [h2]
  | ok t =>
    rw [hh] at h
    rcases t with ⟨lines, warns, m2⟩
    dsimp only at h
    exfalso
    cases hp : parsePlyHeader lines with
    | error e =>
      rw [hp] at h
      simp at h
      subst h
      rcases parsePlyHeader_error lines _ hp with h2 | h2 | h2 | h2 <;>
        exact absurd h2 (by decide)
    | ok attrs =>
      rw [hp] at h
      split_ifs at h
      · simp at h
      · cases hw : writeCells m2.cell_data m2.cells 0
            (g.children ++ [(str "points", writePointsGrp m2)]) with
        | error e =>
          rw [hw] at h
          simp at h
          subst h
          rcases writeCells_error _ _ _ _ _ hw with h2 | h2 <;> exact absurd h2 (by decide)
        | ok ch =>
          rw [hw] at h
          simp at h

/-- C5 (amended): for a mesh with at least one face (and at most three point
coordinate columns) whose cell blocks use more than one index element dtype
after the 64-bit downcast, header derivation fails with the IOError
("Could not write ply header from mesh") and so does write on any container;
for a mesh whose blocks share one dtype after downcast, neither header
derivation nor write ever raises that error. -/
theorem c5_heterogeneous_dtype (m : Mesh) (now : List Char) :
    (0 < numCells m → m.points.ncols ≤ 3 → ¬ SameCellDtype m →
      headerFromMesh m now = Except.error PyErr.ioError ∧
      ∀ g, write g m now = Except.error PyErr.ioError) ∧
    (SameCellDtype m →
      headerFromMesh m now ≠ Except.error PyErr.ioError ∧
      ∀ g, write g m now ≠ Except.error PyErr.ioError) := by
  constructor
  · intro hn hcols hsame
    have hhd : headerFromMesh m now = Except.error PyErr.ioError := by
      rw [headerFromMesh, if_neg (by omega)]
      dsimp only
      rw [if_neg (by omega)]
      rw [checkCellDtype_downCells,
        if_neg (show ¬ ∀ c1 ∈ m.cells, ∀ c2 ∈ m.cells,
          downDt c1.2.dtype = downDt c2.2.dtype from hsame)]
    exact ⟨hhd, fun g => by rw [write, hhd]⟩
  · intro hsame
    have hhd : headerFromMesh m now ≠ Except.error PyErr.ioError := by
      intro h
      rw [headerFromMesh] at h
      by_cases h1 : m.points.ncols > 3
      · rw [if_pos h1] at h
        injection h with h2
        exact PyErr.noConfusion h2
      · rw [if_neg h1] at h
        dsimp only at h
        by_cases h2 : numCells m = 0
        · rw [if_pos h2] at h
          exact Except.noConfusion h
        · rw [if_neg h2, checkCellDtype_downCells,
            if_pos (show ∀ c1 ∈ m.cells, ∀ c2 ∈ m.cells,
              downDt c1.2.dtype = downDt c2.2.dtype from hsame)] at h
          dsimp only at h
          cases hcd : cellDataHeaderProps m.cell_data with
          | error e =>
            rw [hcd] at h
            dsimp only at h
            injection h with h3
            rcases cellDataHeaderProps_error _ _ hcd with h4 | h4 <;>
              (rw [h4] at h3; exact PyErr.noConfusion h3)
          | ok cdLs =>
            rw [hcd] at h
            dsimp only at h
            exact Except.noConfusion h
    refine ⟨hhd, fun g h => hhd (write_error_ioError g m now h)⟩

/-- C5 counterexample: a mesh whose two cell blocks have distinct index
dtypes (int32 and int16) but zero rows each: the total face count is zero, so
the homogeneity check never runs, no error is raised, and write succeeds. -/
theorem c5_counterexample :
    ¬ SameCellDtype hetEmptyMesh ∧ (write freshGroup hetEmptyMesh ts0).isOk = true := by
  decide

/-- Witness for c5_heterogeneous_dtype at concrete meshes on both branches. -/
theorem c5_witness :
    headerFromMesh hetFacesMesh ts0 = Except.error PyErr.ioError ∧
      write freshGroup hetFacesMesh ts0 = Except.error PyErr.ioError ∧
      write freshGroup c5HomoMesh ts0 ≠ Except.error PyErr.ioError :=
  ⟨((c5_heterogeneous_dtype hetFacesMesh ts0).1 (by decide) (by decide) (by decide)).1,
    ((c5_heterogeneous_dtype hetFacesMesh ts0).1 (by decide) (by decide) (by decide)).2 freshGroup,
    ((c5_heterogeneous_dtype c5HomoMesh ts0).2 (by decide)).2 freshGroup⟩

theorem cellDataHeaderProps_ok (cd : List (List Char × List ZVal))
    (r : List (List Char)) (h : cellDataHeaderProps cd = .ok r) : cd = [] ∧ r = [] := by
  cases cd with
  | nil =>
    rw [cellDataHeaderProps] at h
    injection h with h2
    exact ⟨rfl, h2.symm⟩
  | cons p rest =>
    rcases p with ⟨name, vals⟩
    rw [cellDataHeaderProps] at h
    split_ifs at h

/-- Full characterization of a successful header derivation for a mesh with
at least one face. -/
theorem headerFromMesh_ok_faces (m : Mesh) (now : List Char) (lines : List (List Char))
    (warns : List Warning) (m2 : Mesh)
    (hok : headerFromMesh m now = .ok (lines, warns, m2)) (hn : 0 < numCells m) :
    m.points.ncols ≤ 3 ∧ m.cell_data = [] ∧
    (∀ c1 ∈ m.cells, ∀ c2 ∈ m.cells, downDt c1.2.dtype = downDt c2.2.dtype) ∧
    m2 = { m with cells := downCells m.cells } ∧
    warns = (pdProps m.point_data).2
      ++ (if m.cells.any (fun c => c.2.dtype = Dtype.int64)
          then [Warning.downcast64] else []) ∧
    lines = [str "ply", str "format ascii 1.0",
        str "comment Created by ply-zarr v0.0.1, " ++ now,
        str "element vertex " ++ natToChars m.points.nrows]
      ++ (coordNames.take m.points.ncols).map
          (fun c => str "property " ++ typeNameTable m.points.dtype ++ ' ' :: c)
      ++ (pdProps m.point_data).1
      ++ (str "element face " ++ natToChars (numCells m))
        :: (match headCellDtype (downCells m.cells) with
            | some dt => [str "property list uint8 " ++ numpyToPlyDtype dt ++ str " vertex_indices"]
            | none => [])
      ++ [str "end_header"] := by
  rw [headerFromMesh] at hok
  by_cases h1 : m.points.ncols > 3
  · rw [if_pos h1] at hok
    exact Except.noConfusion hok
  · rw [if_neg h1] at hok
    dsimp only at hok
    rw [if_neg (by omega)] at hok
    rw [checkCellDtype_downCells] at hok
    by_cases hsame : ∀ c1 ∈ m.cells, ∀ c2 ∈ m.cells, downDt c1.2.dtype = downDt c2.2.dtype
    · rw [if_pos hsame] at hok
      dsimp only at hok
      cases hcd : cellDataHeaderProps m.cell_data with
      | error e =>
        rw [hcd] at hok
        exact Except.noConfusion hok
      | ok cdLs =>
        rw [hcd] at hok
        dsimp only at hok
        obtain ⟨hcd1, hcd2⟩ := cellDataHeaderProps_ok _ _ hcd
        subst hcd2
        injection hok with h2
        simp only [Prod.mk.injEq] at h2
        obtain ⟨hl, hw, hm⟩ := h2
        refine ⟨by omega, hcd1, hsame, hm.symm, hw.symm, ?_⟩
        rw [← hl]
        simp
    · rw [if_neg hsame] at hok
      exact Except.noConfusion hok

theorem writeCells_ok_shape (cells : List (List Char × Mat)) :
    ∀ (i : Nat) (ch ch2 : List (List Char × ZSubGroup)),
    writeCells [] cells i ch = .ok ch2 →
    ch2 = ch ++ cells.map (fun c =>
      (natToChars c.2.ncols,
        (⟨[(str "vertex_indices", ZVal.a2 c.2.dtype c.2.rows)]⟩ : ZSubGroup))) := by
  induction cells with
  | nil =>
    intro i ch ch2 h
    rw [writeCells] at h
    injection h with h2
    rw [← h2]
    simp
  | cons c rest ih =>
    intro i ch ch2 h
    rcases c with ⟨nm, mat⟩
    rw [writeCells] at h
    split_ifs at h
    dsimp only [cellArrays, List.foldl, dictSet] at h
    rw [ih _ _ _ h]
    simp

theorem writeCells_lookup (cells : List (List Char × Mat)) :
    ∀ (i0 : Nat) (ch ch2 : List (List Char × ZSubGroup)),
    writeCells [] cells i0 ch = .ok ch2 →
    (∀ j (hj : j < cells.length),
      dictGet ch2 (natToChars (cells.get ⟨j, hj⟩).2.ncols)
        = some ⟨[(str "vertex_indices",
            ZVal.a2 (cells.get ⟨j, hj⟩).2.dtype (cells.get ⟨j, hj⟩).2.rows)]⟩) ∧
    (∀ k, (dictGet ch k).isSome = true → dictGet ch2 k = dictGet ch k) := by
  induction cells with
  | nil =>
    intro i0 ch ch2 h
    rw [writeCells] at h
    injection h with h2
    subst h2
    exact ⟨fun j hj => absurd hj (by simp), fun k hk => rfl⟩
  | cons c rest ih =>
    intro i0 ch ch2 h
    rcases c with ⟨nm, mat⟩
    rw [writeCells] at h
    split_ifs at h with hkey
    dsimp only [cellArrays, List.foldl, dictSet] at h
    obtain ⟨ihj, ihk⟩ := ih _ _ _ h
    have hnone : (dictGet ch (natToChars mat.ncols)).isSome = false := by
      simpa using hkey
    have hfresh : natToChars mat.ncols ∉ ch.map Prod.fst := by
      intro hmem
      rw [← dictGet_isSome_mem] at hmem
      rw [hnone] at hmem
      exact Bool.false_ne_true hmem
    have h1 : dictGet
        (ch ++ [(natToChars mat.ncols,
          (⟨[(str "vertex_indices", ZVal.a2 mat.dtype mat.rows)]⟩ : ZSubGroup))])
        (natToChars mat.ncols) = some ⟨[(str "vertex_indices", ZVal.a2 mat.dtype mat.rows)]⟩ :=
      dictGet_last _ _ _ hfresh
    constructor
    · intro j hj
      cases j with
      | zero =>
        have h2 := ihk (natToChars mat.ncols) (by rw [h1]; rfl)
        exact h2.trans h1
      | succ j0 =>
        have h3 := ihj j0 (by
          rw [List.length_cons] at hj
          omega)
        simpa using h3
    · intro k hk
      have h4 : dictGet
          (ch ++ [(natToChars mat.ncols,
            (⟨[(str "vertex_indices", ZVal.a2 mat.dtype mat.rows)]⟩ : ZSubGroup))]) k
          = dictGet ch k := dictGet_append_left _ _ _ hk
      rw [ihk k (by rw [h4]; exact hk), h4]

theorem write_ok_parts (g : ZGroup) (m : Mesh) (now : List Char) (g2 : ZGroup)
    (warns : List Warning) (m2 : Mesh)
    (h : write g m now = .ok (g2, warns, m2)) :
    ∃ lines attrs ch,
      headerFromMesh m now = .ok (lines, warns, m2) ∧
      parsePlyHeader lines = .ok attrs ∧
      (dictGet g.children (str "points")).isSome = false ∧
      writeCells m2.cell_data m2.cells 0
        (g.children ++ [(str "points", writePointsGrp m2)]) = .ok ch ∧
      g2 = ⟨some attrs, ch⟩ := by
  rw [write] at h
  cases hh : headerFromMesh m now with
  | error e =>
    rw [hh] at h
    exact Except.noConfusion h
  | ok t =>
    rcases t with ⟨lines, warns2, m3⟩
    rw [hh] at h
    dsimp only at h
    cases hp : parsePlyHeader lines with
    | error e =>
      rw [hp] at h
      exact Except.noConfusion h
    | ok attrs =>
      rw [hp] at h
      dsimp only at h
      split_ifs at h with hpts
      cases hw : writeCells m3.cell_data m3.cells 0
          (g.children ++ [(str "points", writePointsGrp m3)]) with
      | error e =>
        rw [hw] at h
        exact Except.noConfusion h
      | ok ch =>
        rw [hw] at h
        dsimp only at h
        injection h with h2
        simp only [Prod.mk.injEq] at h2
        obtain ⟨hg, hwarns, hm⟩ := h2
        subst hg
        subst hwarns
        subst hm
        exact ⟨lines, attrs, ch, rfl, hp, by simpa using hpts, hw, rfl⟩

theorem downCells_length (cells : List (List Char × Mat)) :
    (downCells cells).length = cells.length := by
  simp [downCells]

theorem downCells_get (cells : List (List Char × Mat)) :
    ∀ (i : Nat) (hi : i < cells.length) (hi2 : i < (downCells cells).length),
    (downCells cells).get ⟨i, hi2⟩
      = if (cells.get ⟨i, hi⟩).2.dtype = Dtype.int64
        then ((cells.get ⟨i, hi⟩).1, downMat (cells.get ⟨i, hi⟩).2)
        else cells.get ⟨i, hi⟩ := by
  induction cells with
  | nil =>
    intro i hi hi2
    exact absurd hi (by simp)
  | cons c rest ih =>
    intro i hi hi2
    cases i with
    | zero => rfl
    | succ j =>
      exact ih j (by simpa using hi) (by rw [downCells_length]; simpa using hi)

/-- C6 (amended): for every mesh with at least one face, header derivation
downcasts exactly the blocks whose index dtype is the signed 64-bit int64,
replacing each with an int32 block over the same shape with values wrapped
into the 32-bit range, mutating the mesh that write then uses; a non-fatal
downcast warning is emitted when any such block exists; blocks of any other
dtype (unsigned 64-bit included) are left unchanged; and the vertex_indices
array subsequently written for a downcast block carries the int32 data. -/
theorem c6_int64_downcast (m : Mesh) (now : List Char) (hn : 0 < numCells m) :
    (∀ lines warns m2, headerFromMesh m now = Except.ok (lines, warns, m2) →
      m2.cells.length = m.cells.length ∧
      (∀ i (hi : i < m.cells.length) (hi2 : i < m2.cells.length),
        ((m.cells.get ⟨i, hi⟩).2.dtype = Dtype.int64 →
          m2.cells.get ⟨i, hi2⟩
            = ((m.cells.get ⟨i, hi⟩).1,
               ⟨Dtype.int32, (m.cells.get ⟨i, hi⟩).2.nrows, (m.cells.get ⟨i, hi⟩).2.ncols,
                (m.cells.get ⟨i, hi⟩).2.rows.map (fun r => r.map castInt32)⟩)) ∧
        ((m.cells.get ⟨i, hi⟩).2.dtype ≠ Dtype.int64 →
          m2.cells.get ⟨i, hi2⟩ = m.cells.get ⟨i, hi⟩)) ∧
      ((∃ c ∈ m.cells, c.2.dtype = Dtype.int64) → Warning.downcast64 ∈ warns)) ∧
    (∀ g2 warns m2, write freshGroup m now = Except.ok (g2, warns, m2) →
      ∀ i (hi : i < m.cells.length), (m.cells.get ⟨i, hi⟩).2.dtype = Dtype.int64 →
        dictGet g2.children (natToChars (m.cells.get ⟨i, hi⟩).2.ncols)
          = some ⟨[(str "vertex_indices",
              ZVal.a2 Dtype.int32
                ((m.cells.get ⟨i, hi⟩).2.rows.map (fun r => r.map castInt32)))]⟩) := by
  constructor
  · intro lines warns m2 hok
    obtain ⟨-, -, -, hm2, hwarns, -⟩ := headerFromMesh_ok_faces m now lines warns m2 hok hn
    subst hm2
    refine ⟨downCells_length m.cells, ?_, ?_⟩
    · intro i hi hi2
      constructor
      · intro h64
        rw [show ({ m with cells := downCells m.cells } : Mesh).cells.get ⟨i, hi2⟩
            = (downCells m.cells).get ⟨i, hi2⟩ from rfl]
        rw [downCells_get m.cells i hi hi2, if_pos h64]
        rfl
      · intro h64
        rw [show ({ m with cells := downCells m.cells } : Mesh).cells.get ⟨i, hi2⟩
            = (downCells m.cells).get ⟨i, hi2⟩ from rfl]
        rw [downCells_get m.cells i hi hi2, if_neg h64]
    · rintro ⟨c, hc, h64⟩
      rw [hwarns]
      have hany : (m.cells.any fun c => c.2.dtype = Dtype.int64) = true := by
        rw [List.any_eq_true]
        exact ⟨c, hc, by simp [h64]⟩
      rw [hany]
      simp
  · intro g2 warns m2 hok2 i hi h64
    obtain ⟨lines, attrs, ch, hh, hp, hnp, hw, hg2⟩ :=
      write_ok_parts freshGroup m now g2 warns m2 hok2
    obtain ⟨-, hcd, -, hm2, -, -⟩ := headerFromMesh_ok_faces m now lines warns m2 hh hn
    subst hm2
    rw [show ({ m with cells := downCells m.cells } : Mesh).cell_data = m.cell_data from rfl,
      hcd,
      show ({ m with cells := downCells m.cells } : Mesh).cells = downCells m.cells from rfl] at hw
    obtain ⟨hlook, -⟩ := writeCells_lookup (downCells m.cells) 0 _ ch hw
    have hi2 : i < (downCells m.cells).length := by rw [downCells_length]; exact hi
    have hthis := hlook i hi2
    rw [downCells_get m.cells i hi hi2, if_pos h64] at hthis
    rw [hg2]
    exact hthis

/-- C6 counterexample: a uint64 block uses a 64-bit integer representation
but is not downcast (the loop checks dtype == int64 only): header derivation
returns the mesh unchanged and emits no warning, and the written
vertex_indices array keeps the uint64 dtype. -/
theorem c6_counterexample :
    (headerFromMesh u64Mesh ts0).map (fun t => (t.2.1, t.2.2)) = Except.ok ([], u64Mesh) ∧
      (write freshGroup u64Mesh ts0).map (fun t => dictGet t.1.children (str "3"))
        = Except.ok (some ⟨[(str "vertex_indices", ZVal.a2 Dtype.uint64 [[0, 1, 2]])]⟩) := by
  decide

/-- Witness for c6_int64_downcast at a concrete int64 mesh. -/
theorem c6_witness :
    (write freshGroup i64Mesh ts0).map (fun t => dictGet t.1.children (natToChars 3))
      = Except.ok (some ⟨[(str "vertex_indices", ZVal.a2 Dtype.int32 [[0, 1, 2]])]⟩) := by
  cases hw : write freshGroup i64Mesh ts0 with
  | error e =>
    have hok : (write freshGroup i64Mesh ts0).isOk = true := by decide
    rw [hw] at hok
    exact absurd hok Bool.false_ne_true
  | ok t =>
    rcases t with ⟨g2, warns, m2⟩
    have hthis := (c6_int64_downcast i64Mesh ts0 (by decide)).2 g2 warns m2 hw 0
      (by decide) (by decide)
    dsimp only [Except.map]
    exact congrArg Except.ok hthis

/-! ## Lemmas: parsing the generated header -/

theorem dictSet_dictSet {α : Type} (l : List (List Char × α)) (k : List Char) (v1 v2 : α) :
    dictSet (dictSet l k v1) k v2 = dictSet l k v2 := by
  induction l with
  | nil =>
    rw [show dictSet (dictSet ([] : List (List Char × α)) k v1) k v2
        = if k = k then [(k, v2)] else (k, v1) :: dictSet [] k v2 from rfl, if_pos rfl]
    rfl
  | cons p t ih =>
    rcases p with ⟨k0, w⟩
    by_cases hk : k0 = k
    · rw [dictSet, if_pos hk, dictSet, if_pos rfl, dictSet, if_pos hk]
    · rw [dictSet, if_neg hk, dictSet, if_neg hk, dictSet, if_neg hk, ih]

theorem dictSet_self {α : Type} (l : List (List Char × α)) (k : List Char) (d : α)
    (h : dictGet l k = some d) : dictSet l k d = l := by
  induction l with
  | nil => simp [dictGet] at h
  | cons p t ih =>
    rcases p with ⟨k0, w⟩
    by_cases hk : k0 = k
    · rw [dictGet, if_pos hk] at h
      injection h with h2
      rw [dictSet, if_pos hk, h2, hk]
    · rw [dictGet, if_neg hk] at h
      rw [dictSet, if_neg hk, ih h]

theorem dictGet_dictSet_ne {α : Type} (l : List (List Char × α)) (k k2 : List Char) (v : α)
    (h : k ≠ k2) : dictGet (dictSet l k v) k2 = dictGet l k2 := by
  induction l with
  | nil =>
    rw [show dictGet (dictSet ([] : List (List Char × α)) k v) k2
        = if k = k2 then some v else dictGet ([] : List (List Char × α)) k2 from rfl,
      if_neg h]
  | cons p t ih =>
    rcases p with ⟨k0, w⟩
    by_cases hk : k0 = k
    · rw [dictSet, if_pos hk, dictGet, if_neg h, dictGet, if_neg (hk ▸ h : ¬ k0 = k2)]
    · rw [dictSet, if_neg hk, dictGet, dictGet, ih]

theorem dictGet_foldl_not_mem {α : Type} (pd : List (List Char × α)) :
    ∀ (acc : List (List Char × α)) (k : List Char), k ∉ pd.map Prod.fst →
    dictGet (pd.foldl (fun a kv => dictSet a kv.1 kv.2) acc) k = dictGet acc k := by
  induction pd with
  | nil => intro acc k h; rfl
  | cons kv rest ih =>
    intro acc k h
    rw [List.map_cons, List.mem_cons, not_or] at h
    rw [List.foldl_cons, ih _ _ h.2, dictGet_dictSet_ne _ _ _ _ (fun he => h.1 he.symm)]

theorem dictGet_foldl_mem {α : Type} (pd : List (List Char × α)) :
    ∀ (acc : List (List Char × α)) (k : List Char) (v : α),
    (k, v) ∈ pd → (pd.map Prod.fst).Nodup →
    dictGet (pd.foldl (fun a kv => dictSet a kv.1 kv.2) acc) k = some v := by
  induction pd with
  | nil =>
    intro acc k v h
    exact absurd h (List.not_mem_nil _)
  | cons kv rest ih =>
    intro acc k v hmem hnodup
    rw [List.map_cons, List.nodup_cons] at hnodup
    rw [List.foldl_cons]
    rcases List.mem_cons.1 hmem with h | h
    · have hk : kv.1 = k := by rw [← h]
      have hv : kv.2 = v := by rw [← h]
      have hnot : k ∉ rest.map Prod.fst := hk ▸ hnodup.1
      rw [dictGet_foldl_not_mem rest _ k hnot, hk, hv, dictGet_dictSet_self]
    · exact ih _ k v h hnodup.2

theorem parseLines_comment_raw (c : List Char) (ls : List (List Char)) (st : PState) :
    parseLines ((str "comment " ++ c) :: ls) st
      = parseLines ls
          { st with attrs :=
              { st.attrs with comments := st.attrs.comments ++ [unwords (words c)] } } := rfl

theorem parseLines_scalar_prop (tn k : List Char) (ls : List (List Char)) (st : PState)
    (ename : List Char) (d : ElemDesc)
    (he : st.lastElem = some ename)
    (hd : dictGet st.attrs.elements ename = some d)
    (htn : WFTok tn) :
    parseLines ((str "property " ++ tn ++ ' ' :: k) :: ls) st
      = parseLines ls
          { st with attrs :=
              { st.attrs with
                elements := dictSet st.attrs.elements ename
                  ⟨d.size, d.props ++ [tn :: words k]⟩ } } := by
  rw [show str "property " ++ tn ++ ' ' :: k = str "property " ++ (tn ++ ' ' :: k) from
    List.append_assoc _ _ _]
  rw [parseLines_property_raw _ _ _ ename d he hd]
  rw [words_keyword tn k htn]

theorem parseLines_pdProps (pd : List (List Char × ZVal)) :
    ∀ (ls : List (List Char)) (fmt : List Char) (cms : List (List Char))
      (done : List (List Char × ElemDesc)) (ename : List Char) (d : ElemDesc),
    dictGet done ename = some d →
    parseLines ((pdProps pd).1 ++ ls) ⟨⟨fmt, cms, done⟩, some ename⟩
      = parseLines ls
          ⟨⟨fmt, cms, dictSet done ename ⟨d.size, d.props ++ pdPropTuples pd⟩⟩, some ename⟩ := by
  induction pd with
  | nil =>
    intro ls fmt cms done ename d hd
    dsimp only [pdProps, pdPropTuples]
    rw [List.nil_append, List.append_nil]
    rw [show (⟨d.size, d.props⟩ : ElemDesc) = d from rfl, dictSet_self _ _ _ hd]
  | cons kv rest ih =>
    intro ls fmt cms done ename d hd
    rcases kv with ⟨k, v⟩
    cases v with
    | a2 dt rows =>
      dsimp only [pdProps, pdPropTuples]
      exact ih ls fmt cms done ename d hd
    | a1 dt xs =>
      dsimp only [pdProps, pdPropTuples]
      rw [List.cons_append,
        parseLines_scalar_prop (typeNameTable dt) k _ _ ename d rfl hd (typeNameTable_wftok dt)]
      rw [show ({ (⟨⟨fmt, cms, done⟩, some ename⟩ : PState) with attrs :=
          { (⟨⟨fmt, cms, done⟩, some ename⟩ : PState).attrs with
            elements := dictSet (⟨⟨fmt, cms, done⟩, some ename⟩ : PState).attrs.elements ename
              ⟨d.size, d.props ++ [typeNameTable dt :: words k]⟩ } } : PState)
        = ⟨⟨fmt, cms, dictSet done ename ⟨d.size, d.props ++ [typeNameTable dt :: words k]⟩⟩,
            some ename⟩ from rfl]
      rw [ih ls fmt cms _ ename ⟨d.size, d.props ++ [typeNameTable dt :: words k]⟩
        (dictGet_dictSet_self _ _ _)]
      rw [dictSet_dictSet, List.append_assoc]
      rfl

theorem intToChars_natCast (n : Nat) : intToChars (n : Int) = natToChars n := by
  rw [intToChars, if_neg (by omega)]
  rfl

theorem words_faceList (ty : List Char) (hty : WFTok ty) :
    words (str "list uint8 " ++ ty ++ str " vertex_indices")
      = [str "list", str "uint8", ty, str "vertex_indices"] := by
  rw [show str "list uint8 " ++ ty ++ str " vertex_indices"
      = str "list" ++ ' ' :: (str "uint8" ++ ' ' :: (ty ++ ' ' :: str "vertex_indices")) from rfl]
  rw [words_keyword _ _ (by decide), words_keyword _ _ (by decide), words_keyword _ _ hty,
    words_word _ (by decide)]

theorem coordNames_take_wftok (d : Nat) : ∀ c ∈ coordNames.take d, WFTok c := by
  intro c hc
  have hmem : c ∈ coordNames := List.mem_of_mem_take hc
  rw [coordNames] at hmem
  rcases List.mem_cons.1 hmem with h | hmem
  · rw [h]; decide
  · rcases List.mem_cons.1 hmem with h | hmem
    · rw [h]; decide
    · rcases List.mem_cons.1 hmem with h | hmem
      · rw [h]; decide
      · exact absurd hmem (List.not_mem_nil c)

theorem parseLines_coordProps (tn : List Char) (cs : List (List Char)) :
    ∀ (ls : List (List Char)) (fmt : List Char) (cms : List (List Char))
      (done : List (List Char × ElemDesc)) (ename : List Char) (d0 : ElemDesc),
    dictGet done ename = some d0 →
    (∀ c ∈ cs, WFTok c) →
    WFTok tn →
    parseLines ((cs.map (fun c => str "property " ++ tn ++ ' ' :: c)) ++ ls)
        ⟨⟨fmt, cms, done⟩, some ename⟩
      = parseLines ls
          ⟨⟨fmt, cms, dictSet done ename
            ⟨d0.size, d0.props ++ cs.map (fun c => [tn, c])⟩⟩, some ename⟩ := by
  induction cs with
  | nil =>
    intro ls fmt cms done ename d0 hd hwf htn
    rw [List.map_nil, List.nil_append, List.map_nil, List.append_nil]
    rw [show (⟨d0.size, d0.props⟩ : ElemDesc) = d0 from rfl, dictSet_self _ _ _ hd]
  | cons c cs ih =>
    intro ls fmt cms done ename d0 hd hwf htn
    rw [List.map_cons, List.cons_append,
      parseLines_scalar_prop tn c _ _ ename d0 rfl hd htn,
      words_word c (hwf c (by simp))]
    rw [show ({ (⟨⟨fmt, cms, done⟩, some ename⟩ : PState) with attrs :=
        { (⟨⟨fmt, cms, done⟩, some ename⟩ : PState).attrs with
          elements := dictSet (⟨⟨fmt, cms, done⟩, some ename⟩ : PState).attrs.elements ename
            ⟨d0.size, d0.props ++ [[tn, c]]⟩ } } : PState)
      = ⟨⟨fmt, cms, dictSet done ename ⟨d0.size, d0.props ++ [[tn, c]]⟩⟩, some ename⟩ from rfl]
    rw [ih ls fmt cms _ ename ⟨d0.size, d0.props ++ [[tn, c]]⟩ (dictGet_dictSet_self _ _ _)
      (fun x hx => hwf x (by simp [hx])) htn]
    rw [dictSet_dictSet, List.map_cons, List.append_assoc]
    rfl

/-- Parsing the generated header prefix (everything before the face section)
lands in the state holding the format, the synthetic comment and the vertex
element with its coordinate and point_data properties. -/
theorem parseLines_generated_prefix (m : Mesh) (now : List Char) (rest : List (List Char)) :
    parseLines ((str "format ascii 1.0")
        :: (str "comment Created by ply-zarr v0.0.1, " ++ now)
        :: (str "element vertex " ++ natToChars m.points.nrows)
        :: ((coordNames.take m.points.ncols).map
            (fun c => str "property " ++ typeNameTable m.points.dtype ++ ' ' :: c)
          ++ ((pdProps m.point_data).1 ++ rest))) initPState
      = parseLines rest
          ⟨⟨str "ascii 1.0", [genComment now], [(str "vertex", vertexElemDesc m)]⟩,
            some (str "vertex")⟩ := by
  rw [show (str "format ascii 1.0" : List Char) = str "format " ++ str "ascii 1.0" from rfl,
    parseLines_format _ _ _ (by decide)]
  rw [show ({ initPState with attrs := { initPState.attrs with format := str "ascii 1.0" } }
      : PState) = ⟨⟨str "ascii 1.0", [], []⟩, none⟩ from rfl]
  rw [show (str "comment Created by ply-zarr v0.0.1, " ++ now : List Char)
      = str "comment " ++ (str "Created by ply-zarr v0.0.1, " ++ now) from rfl,
    parseLines_comment_raw]
  rw [show ({ (⟨⟨str "ascii 1.0", [], []⟩, none⟩ : PState) with attrs :=
      { (⟨⟨str "ascii 1.0", [], []⟩, none⟩ : PState).attrs with
        comments := (⟨⟨str "ascii 1.0", [], []⟩, none⟩ : PState).attrs.comments
          ++ [unwords (words (str "Created by ply-zarr v0.0.1, " ++ now))] } } : PState)
      = ⟨⟨str "ascii 1.0", [genComment now], []⟩, none⟩ from rfl]
  rw [show (str "element vertex " ++ natToChars m.points.nrows : List Char)
      = str "element " ++ str "vertex" ++ ' ' :: intToChars (m.points.nrows : Int) from by
        rw [intToChars_natCast]
        rfl,
    parseLines_element (str "vertex") _ _ _ (by decide)]
  rw [show (⟨{ (⟨⟨str "ascii 1.0", [genComment now], []⟩, none⟩ : PState).attrs with
      elements := dictSet (⟨⟨str "ascii 1.0", [genComment now], []⟩, none⟩ : PState).attrs.elements
        (str "vertex") ⟨(m.points.nrows : Int), []⟩ }, some (str "vertex")⟩ : PState)
      = ⟨⟨str "ascii 1.0", [genComment now],
          [(str "vertex", (⟨(m.points.nrows : Int), []⟩ : ElemDesc))]⟩,
        some (str "vertex")⟩ from rfl]
  rw [parseLines_coordProps (typeNameTable m.points.dtype) (coordNames.take m.points.ncols)
    _ (str "ascii 1.0") [genComment now]
    [(str "vertex", (⟨(m.points.nrows : Int), []⟩ : ElemDesc))]
    (str "vertex") ⟨(m.points.nrows : Int), []⟩ rfl
    (coordNames_take_wftok m.points.ncols) (typeNameTable_wftok _)]
  rw [show dictSet [(str "vertex", (⟨(m.points.nrows : Int), []⟩ : ElemDesc))] (str "vertex")
      ⟨(m.points.nrows : Int),
        [] ++ (coordNames.take m.points.ncols).map (fun c => [typeNameTable m.points.dtype, c])⟩
      = [(str "vertex", (⟨(m.points.nrows : Int),
          (coordNames.take m.points.ncols).map (fun c => [typeNameTable m.points.dtype, c])⟩
          : ElemDesc))] from rfl]
  rw [parseLines_pdProps m.point_data rest (str "ascii 1.0") [genComment now]
    [(str "vertex", (⟨(m.points.nrows : Int),
      (coordNames.take m.points.ncols).map (fun c => [typeNameTable m.points.dtype, c])⟩
      : ElemDesc))]
    (str "vertex")
    ⟨(m.points.nrows : Int),
      (coordNames.take m.points.ncols).map (fun c => [typeNameTable m.points.dtype, c])⟩ rfl]
  rfl

/-- Parsing the full generated header of a faceless mesh. -/
theorem parse_generated_nofaces (m : Mesh) (now : List Char) :
    parsePlyHeader ([str "ply", str "format ascii 1.0",
        str "comment Created by ply-zarr v0.0.1, " ++ now,
        str "element vertex " ++ natToChars m.points.nrows]
      ++ (coordNames.take m.points.ncols).map
          (fun c => str "property " ++ typeNameTable m.points.dtype ++ ' ' :: c)
      ++ (pdProps m.point_data).1 ++ [str "end_header"])
      = Except.ok ⟨str "ascii 1.0", [genComment now], [(str "vertex", vertexElemDesc m)]⟩ := by
  rw [show ([str "ply", str "format ascii 1.0",
        str "comment Created by ply-zarr v0.0.1, " ++ now,
        str "element vertex " ++ natToChars m.points.nrows]
      ++ (coordNames.take m.points.ncols).map
          (fun c => str "property " ++ typeNameTable m.points.dtype ++ ' ' :: c)
      ++ (pdProps m.point_data).1 ++ [str "end_header"] : List (List Char))
      = str "ply" :: ((str "format ascii 1.0")
        :: (str "comment Created by ply-zarr v0.0.1, " ++ now)
        :: (str "element vertex " ++ natToChars m.points.nrows)
        :: ((coordNames.take m.points.ncols).map
            (fun c => str "property " ++ typeNameTable m.points.dtype ++ ' ' :: c)
          ++ ((pdProps m.point_data).1 ++ [str "end_header"]))) from by simp]
  rw [parsePlyHeader_cons_eq, if_pos (by decide), parseLines_generated_prefix]
  rw [parseLines_end_header]

/-- Parsing the full generated header of a mesh with faces. -/
theorem parse_generated_faces (m : Mesh) (now : List Char) (dt : Dtype) (n : Nat) :
    parsePlyHeader ([str "ply", str "format ascii 1.0",
        str "comment Created by ply-zarr v0.0.1, " ++ now,
        str "element vertex " ++ natToChars m.points.nrows]
      ++ (coordNames.take m.points.ncols).map
          (fun c => str "property " ++ typeNameTable m.points.dtype ++ ' ' :: c)
      ++ (pdProps m.point_data).1
      ++ (str "element face " ++ natToChars n)
        :: [str "property list uint8 " ++ numpyToPlyDtype dt ++ str " vertex_indices"]
      ++ [str "end_header"])
      = Except.ok ⟨str "ascii 1.0", [genComment now],
          [(str "vertex", vertexElemDesc m),
           (str "face", ⟨(n : Int),
             [[str "list", str "uint8", numpyToPlyDtype dt, str "vertex_indices"]]⟩)]⟩ := by
  rw [show ([str "ply", str "format ascii 1.0",
        str "comment Created by ply-zarr v0.0.1, " ++ now,
        str "element vertex " ++ natToChars m.points.nrows]
      ++ (coordNames.take m.points.ncols).map
          (fun c => str "property " ++ typeNameTable m.points.dtype ++ ' ' :: c)
      ++ (pdProps m.point_data).1
      ++ (str "element face " ++ natToChars n)
        :: [str "property list uint8 " ++ numpyToPlyDtype dt ++ str " vertex_indices"]
      ++ [str "end_header"] : List (List Char))
      = str "ply" :: ((str "format ascii 1.0")
        :: (str "comment Created by ply-zarr v0.0.1, " ++ now)
        :: (str "element vertex " ++ natToChars m.points.nrows)
        :: ((coordNames.take m.points.ncols).map
            (fun c => str "property " ++ typeNameTable m.points.dtype ++ ' ' :: c)
          ++ ((pdProps m.point_data).1
            ++ (str "element face " ++ natToChars n)
              :: (str "property list uint8 " ++ numpyToPlyDtype dt ++ str " vertex_indices")
              :: [str "end_header"]))) from by simp]
  rw [parsePlyHeader_cons_eq, if_pos (by decide), parseLines_generated_prefix]
  rw [show (str "element face " ++ natToChars n : List Char)
      = str "element " ++ str "face" ++ ' ' :: intToChars (n : Int) from by
        rw [intToChars_natCast]
        rfl,
    parseLines_element (str "face") _ _ _ (by decide)]
  rw [show (⟨{ (⟨⟨str "ascii 1.0", [genComment now], [(str "vertex", vertexElemDesc m)]⟩,
        some (str "vertex")⟩ : PState).attrs with
      elements := dictSet (⟨⟨str "ascii 1.0", [genComment now],
            [(str "vertex", vertexElemDesc m)]⟩, some (str "vertex")⟩ : PState).attrs.elements
        (str "face") ⟨(n : Int), []⟩ }, some (str "face")⟩ : PState)
      = ⟨⟨str "ascii 1.0", [genComment now],
          [(str "vertex", vertexElemDesc m), (str "face", (⟨(n : Int), []⟩ : ElemDesc))]⟩,
        some (str "face")⟩ from rfl]
  rw [show (str "property list uint8 " ++ numpyToPlyDtype dt ++ str " vertex_indices" : List Char)
      = str "property " ++ (str "list uint8 " ++ numpyToPlyDtype dt ++ str " vertex_indices")
      from rfl]
  rw [parseLines_property_raw _ _
    ⟨⟨str "ascii 1.0", [genComment now],
      [(str "vertex", vertexElemDesc m), (str "face", (⟨(n : Int), []⟩ : ElemDesc))]⟩,
      some (str "face")⟩ (str "face") ⟨(n : Int), []⟩ rfl rfl]
  rw [words_faceList _ (numpyToPlyDtype_wftok dt)]
  rw [parseLines_end_header]
  rfl

/-! ## C9: the face list property line -/

theorem numCells_pos_cells_ne_nil (m : Mesh) (hn : 0 < numCells m) : m.cells ≠ [] := by
  intro h
  rw [numCells, h] at hn
  simp at hn

theorem headCellDtype_downCells_isSome (cells : List (List Char × Mat)) (h : cells ≠ []) :
    ∃ dt, headCellDtype (downCells cells) = some dt := by
  cases cells with
  | nil => exact absurd rfl h
  | cons c rest =>
    exact ⟨(if c.2.dtype = Dtype.int64 then (c.1, downMat c.2) else c).2.dtype, rfl⟩

theorem startsWith_propList_typeName (d : Dtype) (k : List Char) :
    startsWith (str "property " ++ typeNameTable d ++ ' ' :: k) (str "property list")
      = false := by
  cases d <;> rfl

theorem pdProps_lines_not_propList (pd : List (List Char × ZVal)) :
    ∀ l ∈ (pdProps pd).1, startsWith l (str "property list") = false := by
  induction pd with
  | nil => intro l h; exact absurd h (List.not_mem_nil l)
  | cons kv rest ih =>
    intro l h
    rcases kv with ⟨k, v⟩
    cases v with
    | a2 dt rows =>
      dsimp only [pdProps] at h
      exact ih l h
    | a1 dt xs =>
      dsimp only [pdProps] at h
      rcases List.mem_cons.1 h with h | h
      · rw [h]; exact startsWith_propList_typeName dt k
      · exact ih l h

/-- C9: for every mesh with at least one face whose header derivation succeeds,
the derived header contains exactly one list property line, and it has the
exact form `property list uint8 <resolved_type> vertex_indices`: the list
count type is the hardcoded uint8, whatever the mesh contents. -/
theorem c9_face_list_property (m : Mesh) (now : List Char) (lines : List (List Char))
    (warns : List Warning) (m2 : Mesh) (hn : 0 < numCells m)
    (hok : headerFromMesh m now = Except.ok (lines, warns, m2)) :
    ∃ dt, headCellDtype (downCells m.cells) = some dt ∧
      List.filter (fun l => startsWith l (str "property list")) lines
        = [str "property list uint8 " ++ numpyToPlyDtype dt ++ str " vertex_indices"] := by
  obtain ⟨h3, hcd, hsame, hm2, hwarns, hlines⟩ :=
    headerFromMesh_ok_faces m now lines warns m2 hok hn
  obtain ⟨dt, hdt⟩ := headCellDtype_downCells_isSome m.cells (numCells_pos_cells_ne_nil m hn)
  refine ⟨dt, hdt, ?_⟩
  rw [hlines, hdt]
  rw [List.filter_append, List.filter_append, List.filter_append, List.filter_append]
  have hcoord : List.filter (fun l => startsWith l (str "property list"))
      ((coordNames.take m.points.ncols).map
        (fun c => str "property " ++ typeNameTable m.points.dtype ++ ' ' :: c)) = [] := by
    rw [List.filter_eq_nil_iff]
    intro l hl
    obtain ⟨c, hc, rfl⟩ := List.mem_map.1 hl
    have h0 := startsWith_propList_typeName m.points.dtype c
    simp only [List.append_assoc] at h0
    simp [h0]
  have hpd : List.filter (fun l => startsWith l (str "property list"))
      (pdProps m.point_data).1 = [] := by
    rw [List.filter_eq_nil_iff]
    intro l hl
    simp [pdProps_lines_not_propList m.point_data l hl]
  rw [hcoord, hpd]
  rw [show List.filter (fun l => startsWith l (str "property list"))
      [str "ply", str "format ascii 1.0",
        str "comment Created by ply-zarr v0.0.1, " ++ now,
        str "element vertex " ++ natToChars m.points.nrows] = [] from rfl]
  rw [show List.filter (fun l => startsWith l (str "property list"))
      ((str "element face " ++ natToChars (numCells m))
        :: [str "property list uint8 " ++ numpyToPlyDtype dt ++ str " vertex_indices"])
      = [str "property list uint8 " ++ numpyToPlyDtype dt ++ str " vertex_indices"] from rfl]
  rfl

theorem c9_witness :
    ∃ dt, headCellDtype (downCells c9ExMesh.cells) = some dt ∧
      List.filter (fun l => startsWith l (str "property list"))
        [str "ply", str "format ascii 1.0",
          str "comment Created by ply-zarr v0.0.1, 2026-01-01T00:00:00",
          str "element vertex 1", str "property float x", str "property float y",
          str "property float z", str "element face 1",
          str "property list uint8 uint16 vertex_indices", str "end_header"]
        = [str "property list uint8 " ++ numpyToPlyDtype dt ++ str " vertex_indices"] :=
  c9_face_list_property c9ExMesh ts0
    [str "ply", str "format ascii 1.0",
      str "comment Created by ply-zarr v0.0.1, 2026-01-01T00:00:00",
      str "element vertex 1", str "property float x", str "property float y",
      str "property float z", str "element face 1",
      str "property list uint8 uint16 vertex_indices", str "end_header"]
    [] c9ExMesh (by decide) (by decide)

/-! ## C4: the points sub-group contents -/

theorem writeCells_preserve (cd : List (List Char × List ZVal)) (cells : List (List Char × Mat)) :
    ∀ (i : Nat) (ch ch2 : List (List Char × ZSubGroup)),
    writeCells cd cells i ch = .ok ch2 →
    ∀ k, (dictGet ch k).isSome = true → dictGet ch2 k = dictGet ch k := by
  induction cells with
  | nil =>
    intro i ch ch2 h k hk
    rw [writeCells] at h
    injection h with h2
    rw [h2]
  | cons c rest ih =>
    intro i ch ch2 h k hk
    rcases c with ⟨nm, mat⟩
    rw [writeCells] at h
    split_ifs at h
    cases hca : cellArrays cd i with
    | error e =>
      rw [hca] at h
      exact Except.noConfusion h
    | ok arrs =>
      rw [hca] at h
      dsimp only at h
      have hpre := ih _ _ _ h k (by rw [dictGet_append_left _ _ _ hk]; exact hk)
      rw [hpre, dictGet_append_left _ _ _ hk]

theorem writePointsGrp_coord (m : Mesh) (i : Nat) (hi : i < min m.points.ncols 3)
    (hpd : ∀ kv ∈ m.point_data, kv.1 ∉ coordNames) :
    dictGet (writePointsGrp m).arrays (coordNames.getD i [])
      = some (ZVal.a1 m.points.dtype (sliceCol m.points.rows i)) := by
  have h3 : i < 3 := lt_of_lt_of_le hi (Nat.min_le_right _ _)
  have hcmem : coordNames.getD i [] ∈ coordNames := by
    match i, h3 with
    | 0, _ => exact List.mem_cons_self _ _
    | 1, _ => exact List.mem_cons_of_mem _ (List.mem_cons_self _ _)
    | 2, _ => exact List.mem_cons_of_mem _ (List.mem_cons_of_mem _ (List.mem_cons_self _ _))
  have hnotmem : coordNames.getD i [] ∉ m.point_data.map Prod.fst := by
    intro hmem
    obtain ⟨kv, hkv, heq⟩ := List.mem_map.1 hmem
    exact hpd kv hkv (by rw [heq]; exact hcmem)
  dsimp only [writePointsGrp]
  rw [dictGet_foldl_not_mem m.point_data _ _ hnotmem]
  have hr : min m.points.ncols 3 = 1 ∨ min m.points.ncols 3 = 2
      ∨ min m.points.ncols 3 = 3 := by omega
  rcases hr with hr | hr | hr
  · rw [hr]
    have h0 : i = 0 := by omega
    subst h0
    rfl
  · rw [hr]
    have h01 : i = 0 ∨ i = 1 := by omega
    rcases h01 with h0 | h0 <;> subst h0 <;> rfl
  · rw [hr]
    have h012 : i = 0 ∨ i = 1 ∨ i = 2 := by omega
    rcases h012 with h0 | h0 | h0 <;> subst h0 <;> rfl

theorem writePointsGrp_pd (m : Mesh) (k : List Char) (v : ZVal)
    (hmem : (k, v) ∈ m.point_data) (hnodup : (m.point_data.map Prod.fst).Nodup) :
    dictGet (writePointsGrp m).arrays k = some v := by
  dsimp only [writePointsGrp]
  exact dictGet_foldl_mem m.point_data _ k v hmem hnodup

theorem headerFromMesh_ok_nofaces (m : Mesh) (now : List Char)
    (hn : numCells m = 0) (h3 : ¬ m.points.ncols > 3) :
    headerFromMesh m now
      = .ok ([str "ply", str "format ascii 1.0",
          str "comment Created by ply-zarr v0.0.1, " ++ now,
          str "element vertex " ++ natToChars m.points.nrows]
        ++ (coordNames.take m.points.ncols).map
            (fun c => str "property " ++ typeNameTable m.points.dtype ++ ' ' :: c)
        ++ (pdProps m.point_data).1 ++ [str "end_header"],
        (pdProps m.point_data).2, m) := by
  rw [headerFromMesh, if_neg h3]
  dsimp only
  rw [if_pos hn]

theorem headerFromMesh_pointFields (m : Mesh) (now : List Char) (lines : List (List Char))
    (warns : List Warning) (m2 : Mesh)
    (hok : headerFromMesh m now = .ok (lines, warns, m2)) :
    m2.points = m.points ∧ m2.point_data = m.point_data ∧
    ∃ tail, warns = (pdProps m.point_data).2 ++ tail := by
  by_cases h3 : m.points.ncols > 3
  · rw [headerFromMesh, if_pos h3] at hok
    exact Except.noConfusion hok
  · by_cases hn : numCells m = 0
    · rw [headerFromMesh_ok_nofaces m now hn h3] at hok
      injection hok with h2
      rw [Prod.mk.injEq, Prod.mk.injEq] at h2
      obtain ⟨h2a, h2b, h2c⟩ := h2
      refine ⟨by rw [← h2c], by rw [← h2c], [], ?_⟩
      rw [List.append_nil]
      exact h2b.symm
    · obtain ⟨_, _, _, hm2, hwarns, _⟩ := headerFromMesh_ok_faces m now lines warns m2 hok
        (Nat.pos_of_ne_zero hn)
      exact ⟨by rw [hm2], by rw [hm2], _, hwarns⟩

theorem pdProps_warn_mem (pd : List (List Char × ZVal)) (k : List Char) (dt : Dtype)
    (rows : List (List Int)) (h : (k, ZVal.a2 dt rows) ∈ pd) :
    Warning.multidimSkip k ∈ (pdProps pd).2 := by
  induction pd with
  | nil => exact absurd h (List.not_mem_nil _)
  | cons kv rest ih =>
    rcases kv with ⟨k2, v⟩
    rcases List.mem_cons.1 h with heq | htl
    · rw [Prod.mk.injEq] at heq
      obtain ⟨hk, hv⟩ := heq
      subst hk
      rw [← hv]
      dsimp only [pdProps]
      exact List.mem_cons_self _ _
    · cases v with
      | a2 d2 r2 =>
        dsimp only [pdProps]
        exact List.mem_cons_of_mem _ (ih htl)
      | a1 d2 xs =>
        dsimp only [pdProps]
        exact ih htl

/-- C4 counterexample: writing the mesh whose point_data entry "bad" is
two-dimensional succeeds with the multidim-skip warning, yet an array named
"bad" IS stored in the points sub-container, contradicting "no array is
stored for it". -/
theorem c4_counterexample :
    ∃ g2 m2, write freshGroup multidimMesh ts0
        = Except.ok (g2, [Warning.multidimSkip (str "bad")], m2) ∧
      ∃ pg, dictGet g2.children (str "points") = some pg ∧
        dictGet pg.arrays (str "bad")
          = some (ZVal.a2 Dtype.float64 [[1, 2], [3, 4]]) := by
  refine ⟨⟨some ⟨str "ascii 1.0",
      [str "Created by ply-zarr v0.0.1, 2026-01-01T00:00:00"],
      [(str "vertex", ⟨1, [[str "double", str "x"], [str "double", str "y"],
        [str "double", str "z"]]⟩)]⟩,
      [(str "points", ⟨[(str "x", ZVal.a1 Dtype.float64 [0]),
        (str "y", ZVal.a1 Dtype.float64 [0]), (str "z", ZVal.a1 Dtype.float64 [0]),
        (str "bad", ZVal.a2 Dtype.float64 [[1, 2], [3, 4]])]⟩)]⟩,
    multidimMesh, by decide,
    ⟨[(str "x", ZVal.a1 Dtype.float64 [0]),
      (str "y", ZVal.a1 Dtype.float64 [0]), (str "z", ZVal.a1 Dtype.float64 [0]),
      (str "bad", ZVal.a2 Dtype.float64 [[1, 2], [3, 4]])]⟩, by decide, by decide⟩

/-- C4 (amended): write populates the points sub-container with one array per
coordinate axis and one array per EVERY point_data entry, multidimensional
entries included: the multidimensional skip affects only the header property
lines, and each multidimensional entry additionally yields a non-fatal
warning. -/
theorem c4_points_group (m : Mesh) (now : List Char) (g2 : ZGroup)
    (warns : List Warning) (m2 : Mesh)
    (hnodup : (m.point_data.map Prod.fst).Nodup)
    (hcoord : ∀ kv ∈ m.point_data, kv.1 ∉ coordNames)
    (h : write freshGroup m now = Except.ok (g2, warns, m2)) :
    ∃ pg, dictGet g2.children (str "points") = some pg ∧
      (∀ i, i < min m.points.ncols 3 →
        dictGet pg.arrays (coordNames.getD i [])
          = some (ZVal.a1 m.points.dtype (sliceCol m.points.rows i))) ∧
      (∀ k v, (k, v) ∈ m.point_data → dictGet pg.arrays k = some v) ∧
      (∀ k dt rows, (k, ZVal.a2 dt rows) ∈ m.point_data →
        Warning.multidimSkip k ∈ warns) := by
  obtain ⟨lines, attrs, ch, hh, hp, hpts, hw, hg2⟩ := write_ok_parts freshGroup m now g2 warns m2 h
  obtain ⟨hm2p, hm2pd, tail, hwtail⟩ := headerFromMesh_pointFields m now lines warns m2 hh
  have hb : dictGet (freshGroup.children ++ [(str "points", writePointsGrp m2)])
      (str "points") = some (writePointsGrp m2) := rfl
  refine ⟨writePointsGrp m2, ?_, ?_, ?_, ?_⟩
  · rw [hg2]
    show dictGet ch (str "points") = some (writePointsGrp m2)
    rw [writeCells_preserve m2.cell_data m2.cells 0 _ ch hw (str "points")
      (by rw [hb]; rfl), hb]
  · intro i hi
    have hc := writePointsGrp_coord m2 i (by rw [hm2p]; exact hi)
      (by rw [hm2pd]; exact hcoord)
    rw [hm2p] at hc
    exact hc
  · intro k v hkv
    exact writePointsGrp_pd m2 k v (by rw [hm2pd]; exact hkv) (by rw [hm2pd]; exact hnodup)
  · intro k dt rows hkv
    rw [hwtail]
    exact List.mem_append_left _ (pdProps_warn_mem m.point_data k dt rows hkv)

theorem c4_witness :
    ∃ pg, dictGet (⟨some ⟨str "ascii 1.0",
        [str "Created by ply-zarr v0.0.1, 2026-01-01T00:00:00"],
        [(str "vertex", ⟨2, [[str "double", str "x"], [str "double", str "y"],
          [str "int16", str "good"]]⟩)]⟩,
      [(str "points", ⟨[(str "x", ZVal.a1 Dtype.float64 [0, 2]),
        (str "y", ZVal.a1 Dtype.float64 [1, 3]),
        (str "good", ZVal.a1 Dtype.int16 [4, 5]),
        (str "bad2", ZVal.a2 Dtype.float32 [[1], [2]])]⟩)]⟩ : ZGroup).children
        (str "points") = some pg ∧
      (∀ i, i < min c4ExMesh.points.ncols 3 →
        dictGet pg.arrays (coordNames.getD i [])
          = some (ZVal.a1 c4ExMesh.points.dtype (sliceCol c4ExMesh.points.rows i))) ∧
      (∀ k v, (k, v) ∈ c4ExMesh.point_data → dictGet pg.arrays k = some v) ∧
      (∀ k dt rows, (k, ZVal.a2 dt rows) ∈ c4ExMesh.point_data →
        Warning.multidimSkip k ∈ [Warning.multidimSkip (str "bad2")]) :=
  c4_points_group c4ExMesh ts0 _ [Warning.multidimSkip (str "bad2")] c4ExMesh
    (by decide) (by decide) (by decide)

/-! ## Lemmas: reading a written container -/

theorem propLasts_pairs (tn : List Char) (cs : List (List Char)) :
    propLasts (cs.map (fun c => [tn, c])) = .ok cs := by
  induction cs with
  | nil => rfl
  | cons c cs ih =>
    rw [List.map_cons, propLasts,
      show ([tn, c] : List (List Char)).getLast? = some c from rfl, ih]

theorem propLasts_append_ok (ps : List (List (List Char))) :
    ∀ (rs : List (List Char)), propLasts ps = .ok rs →
    ∀ qs, propLasts (ps ++ qs)
      = match propLasts qs with
        | .ok ss => .ok (rs ++ ss)
        | .error e => .error e := by
  induction ps with
  | nil =>
    intro rs h qs
    injection h with h2
    rw [← h2, List.nil_append]
    cases hq : propLasts qs
    · rfl
    · dsimp only
      rw [List.nil_append]
  | cons p ps ih =>
    intro rs h qs
    rw [propLasts] at h
    cases hl : p.getLast? with
    | none =>
      rw [hl] at h
      exact Except.noConfusion h
    | some x =>
      rw [hl] at h
      dsimp only at h
      cases hp : propLasts ps with
      | error e =>
        rw [hp] at h
        exact Except.noConfusion h
      | ok r =>
        rw [hp] at h
        dsimp only at h
        injection h with h2
        rw [List.cons_append, propLasts, hl, ih r hp qs]
        cases hq : propLasts qs
        · rfl
        · dsimp only
          rw [← h2, List.cons_append]

theorem propLasts_pdPropTuples (pd : List (List Char × ZVal))
    (hwk : ∀ kv ∈ pd, WFTok kv.1) :
    propLasts (pdPropTuples pd) = .ok (pdNames1D pd) := by
  induction pd with
  | nil => rfl
  | cons kv rest ih =>
    rcases kv with ⟨k, v⟩
    have hwr : ∀ kv ∈ rest, WFTok kv.1 := fun x hx => hwk x (List.mem_cons_of_mem _ hx)
    cases v with
    | a2 dt rows =>
      dsimp only [pdPropTuples, pdNames1D]
      exact ih hwr
    | a1 dt xs =>
      dsimp only [pdPropTuples, pdNames1D]
      rw [words_word k (hwk (k, ZVal.a1 dt xs) (List.mem_cons_self _ _)), propLasts,
        show ([typeNameTable dt, k] : List (List Char)).getLast? = some k from rfl,
        ih hwr]

theorem propLasts_vertexElemDesc (m : Mesh)
    (hwk : ∀ kv ∈ m.point_data, WFTok kv.1) :
    propLasts (vertexElemDesc m).props
      = .ok (coordNames.take m.points.ncols ++ pdNames1D m.point_data) := by
  rw [show (vertexElemDesc m).props = coordPropTuples m ++ pdPropTuples m.point_data from rfl]
  rw [propLasts_append_ok (coordPropTuples m) (coordNames.take m.points.ncols)
    (propLasts_pairs _ _) _, propLasts_pdPropTuples m.point_data hwk]

theorem mem_pdNames1D (pd : List (List Char × ZVal)) (k : List Char)
    (h : k ∈ pdNames1D pd) : ∃ dt xs, (k, ZVal.a1 dt xs) ∈ pd := by
  induction pd with
  | nil => exact absurd h (List.not_mem_nil _)
  | cons kv rest ih =>
    rcases kv with ⟨k2, v⟩
    cases v with
    | a2 dt rows =>
      obtain ⟨dt2, xs, hx⟩ := ih h
      exact ⟨dt2, xs, List.mem_cons_of_mem _ hx⟩
    | a1 dt xs =>
      rcases List.mem_cons.1 h with heq | htl
      · exact ⟨dt, xs, by rw [heq]; exact List.mem_cons_self _ _⟩
      · obtain ⟨dt2, xs2, hx⟩ := ih htl
        exact ⟨dt2, xs2, List.mem_cons_of_mem _ hx⟩

theorem getD_range (r : List Int) :
    (List.range r.length).map (fun i => r.getD i 0) = r := by
  induction r with
  | nil => rfl
  | cons a t ih =>
    rw [List.length_cons, List.range_succ_eq_map, List.map_cons, List.map_map]
    rw [show ((fun i => (a :: t).getD i 0) ∘ Nat.succ) = (fun i => t.getD i 0) from rfl]
    rw [show (a :: t).getD 0 0 = a from rfl, ih]

theorem transposeAux_slices (rows : List (List Int)) (w : Nat)
    (hlen : ∀ r ∈ rows, r.length = w) :
    transposeAux rows.length ((List.range w).map (fun i => sliceCol rows i)) = rows := by
  induction rows with
  | nil => rfl
  | cons r rest ih =>
    rw [List.length_cons, transposeAux]
    have h1 : ((List.range w).map (fun i => sliceCol (r :: rest) i)).map (fun c => c.headD 0)
        = r := by
      rw [List.map_map,
        show ((fun c => List.headD c 0) ∘ fun i => sliceCol (r :: rest) i)
          = (fun i => r.getD i 0) from rfl]
      rw [← hlen r (List.mem_cons_self _ _), getD_range]
    have h2 : ((List.range w).map (fun i => sliceCol (r :: rest) i)).map List.tail
        = (List.range w).map (fun i => sliceCol rest i) := by
      rw [List.map_map]
      rfl
    rw [h1, h2, ih (fun x hx => hlen x (List.mem_cons_of_mem _ hx))]

theorem sliceCol_length (rows : List (List Int)) (i : Nat) :
    (sliceCol rows i).length = rows.length := by
  rw [sliceCol, List.length_map]

theorem vstackT_slices (rows : List (List Int)) (w : Nat) (hw : 1 ≤ w) :
    vstackT ((List.range w).map (fun i => sliceCol rows i))
      = .ok (transposeAux rows.length ((List.range w).map (fun i => sliceCol rows i))) := by
  cases hcw : (List.range w).map (fun i => sliceCol rows i) with
  | nil =>
    exfalso
    have : (List.range w).length = 0 := by
      rw [← List.length_map (List.range w) (fun i => sliceCol rows i), hcw]
      rfl
    rw [List.length_range] at this
    omega
  | cons c rest =>
    have hmemlen : ∀ x ∈ (List.range w).map (fun i => sliceCol rows i),
        x.length = rows.length := by
      intro x hx
      obtain ⟨i, hi, rfl⟩ := List.mem_map.1 hx
      exact sliceCol_length rows i
    have hc : c.length = rows.length :=
      hmemlen c (by rw [hcw]; exact List.mem_cons_self _ _)
    rw [vstackT]
    rw [if_pos (by
      rw [List.all_eq_true]
      intro x hx
      have : x.length = rows.length :=
        hmemlen x (by rw [hcw]; exact List.mem_cons_of_mem _ hx)
      rw [this, ← hc]
      exact decide_eq_true rfl)]
    rw [hc, ← hcw]

theorem loadPointData_ok (pg : ZSubGroup) (coords : List (List Char)) :
    ∀ (ks : List (List Char)) (acc : List (List Char × ZVal)),
    (∀ k ∈ ks, coords.contains k = true ∨ (dictGet pg.arrays k).isSome = true) →
    ∃ r, loadPointData pg coords ks acc = .ok r := by
  intro ks
  induction ks with
  | nil => exact fun acc _ => ⟨acc, rfl⟩
  | cons k ks ih =>
    intro acc h
    by_cases hc : coords.contains k = true
    · rw [loadPointData, if_pos hc]
      exact ih acc (fun x hx => h x (List.mem_cons_of_mem _ hx))
    · rw [loadPointData, if_neg hc]
      have hsome : (dictGet pg.arrays k).isSome = true :=
        (h k (List.mem_cons_self _ _)).resolve_left hc
      cases hv : dictGet pg.arrays k with
      | none => rw [hv] at hsome; exact absurd hsome (by simp)
      | some v =>
        dsimp only
        exact ih _ (fun x hx => h x (List.mem_cons_of_mem _ hx))

theorem contains_eq_mem (l : List (List Char)) (c : List Char) :
    l.contains c = true ↔ c ∈ l := by
  induction l with
  | nil => simp [List.contains]
  | cons x xs ih => simp [List.contains]

theorem contains_eq_false (l : List (List Char)) (c : List Char) (h : c ∉ l) :
    l.contains c = false := by
  cases hb : l.contains c with
  | false => rfl
  | true => exact absurd ((contains_eq_mem l c).1 hb) h

theorem coordNames_filter_take (m : Mesh) (h3 : m.points.ncols ≤ 3)
    (hcoord : ∀ kv ∈ m.point_data, kv.1 ∉ coordNames) :
    coordNames.filter
        (fun c => (coordNames.take m.points.ncols ++ pdNames1D m.point_data).contains c)
      = coordNames.take m.points.ncols := by
  have hz : ∀ c, c ∈ coordNames → c ∉ pdNames1D m.point_data := by
    intro c hc hmem
    obtain ⟨dt, xs, hv⟩ := mem_pdNames1D m.point_data c hmem
    exact hcoord (c, ZVal.a1 dt xs) hv hc
  have hnm : ∀ c, c ∈ coordNames → c ∉ coordNames.take m.points.ncols →
      (coordNames.take m.points.ncols ++ pdNames1D m.point_data).contains c = false := by
    intro c hc hnt
    refine contains_eq_false _ _ (fun hm => ?_)
    rcases List.mem_append.1 hm with hm | hm
    · exact hnt hm
    · exact hz c hc hm
  have hin : ∀ c, c ∈ coordNames.take m.points.ncols →
      (coordNames.take m.points.ncols ++ pdNames1D m.point_data).contains c = true :=
    fun c hc => (contains_eq_mem _ _).2 (List.mem_append_left _ hc)
  have hr : m.points.ncols = 0 ∨ m.points.ncols = 1 ∨ m.points.ncols = 2
      ∨ m.points.ncols = 3 := by omega
  rcases hr with hr | hr | hr | hr
  · rw [hr]
    have h1 := hnm (str "x") (by decide) (by rw [hr]; decide)
    have h2 := hnm (str "y") (by decide) (by rw [hr]; decide)
    have h3b := hnm (str "z") (by decide) (by rw [hr]; decide)
    rw [hr] at h1 h2 h3b
    simp only [coordNames] at h1 h2 h3b
    simp only [coordNames, List.filter, h1, h2, h3b]
    rfl
  · rw [hr]
    have h1 := hin (str "x") (by rw [hr]; decide)
    have h2 := hnm (str "y") (by decide) (by rw [hr]; decide)
    have h3b := hnm (str "z") (by decide) (by rw [hr]; decide)
    rw [hr] at h1 h2 h3b
    simp only [coordNames] at h1 h2 h3b
    simp only [coordNames, List.filter, h1, h2, h3b]
    rfl
  · rw [hr]
    have h1 := hin (str "x") (by rw [hr]; decide)
    have h2 := hin (str "y") (by rw [hr]; decide)
    have h3b := hnm (str "z") (by decide) (by rw [hr]; decide)
    rw [hr] at h1 h2 h3b
    simp only [coordNames] at h1 h2 h3b
    simp only [coordNames, List.filter, h1, h2, h3b]
    rfl
  · rw [hr]
    have h1 := hin (str "x") (by rw [hr]; decide)
    have h2 := hin (str "y") (by rw [hr]; decide)
    have h3b := hin (str "z") (by rw [hr]; decide)
    rw [hr] at h1 h2 h3b
    simp only [coordNames] at h1 h2 h3b
    simp only [coordNames, List.filter, h1, h2, h3b]
    rfl

theorem getCoordCols_write (m2 : Mesh) (w : Nat) (hw : w ≤ m2.points.ncols) (hw3 : w ≤ 3)
    (hpd : ∀ kv ∈ m2.point_data, kv.1 ∉ coordNames) :
    getCoordCols (writePointsGrp m2) (coordNames.take w)
      = .ok ((List.range w).map (fun i => (m2.points.dtype, sliceCol m2.points.rows i))) := by
  have hr : w = 0 ∨ w = 1 ∨ w = 2 ∨ w = 3 := by omega
  rcases hr with hr | hr | hr | hr <;> subst hr
  · rfl
  · rw [show coordNames.take 1 = [str "x"] from rfl, getCoordCols,
      show dictGet (writePointsGrp m2).arrays (str "x")
        = some (ZVal.a1 m2.points.dtype (sliceCol m2.points.rows 0)) from
        writePointsGrp_coord m2 0 (by omega) hpd]
    rfl
  · rw [show coordNames.take 2 = [str "x", str "y"] from rfl, getCoordCols,
      show dictGet (writePointsGrp m2).arrays (str "x")
        = some (ZVal.a1 m2.points.dtype (sliceCol m2.points.rows 0)) from
        writePointsGrp_coord m2 0 (by omega) hpd]
    dsimp only
    rw [getCoordCols,
      show dictGet (writePointsGrp m2).arrays (str "y")
        = some (ZVal.a1 m2.points.dtype (sliceCol m2.points.rows 1)) from
        writePointsGrp_coord m2 1 (by omega) hpd]
    rfl
  · rw [show coordNames.take 3 = [str "x", str "y", str "z"] from rfl, getCoordCols,
      show dictGet (writePointsGrp m2).arrays (str "x")
        = some (ZVal.a1 m2.points.dtype (sliceCol m2.points.rows 0)) from
        writePointsGrp_coord m2 0 (by omega) hpd]
    dsimp only
    rw [getCoordCols,
      show dictGet (writePointsGrp m2).arrays (str "y")
        = some (ZVal.a1 m2.points.dtype (sliceCol m2.points.rows 1)) from
        writePointsGrp_coord m2 1 (by omega) hpd]
    dsimp only
    rw [getCoordCols,
      show dictGet (writePointsGrp m2).arrays (str "z")
        = some (ZVal.a1 m2.points.dtype (sliceCol m2.points.rows 2)) from
        writePointsGrp_coord m2 2 (by omega) hpd]
    rfl

/-- C10: read looks the face element up unconditionally, so a successful read
implies the stored metadata has a face element; and a container produced by
write from a mesh with zero faces (sane points/point_data) has no face element
in its metadata, and read on it raises the lookup KeyError instead of
returning a faceless mesh. -/
theorem c10_face_required (m : Mesh) (now : List Char)
    (hn : numCells m = 0) (h1 : 1 ≤ m.points.ncols) (h3 : m.points.ncols ≤ 3)
    (hwk : ∀ kv ∈ m.point_data, WFTok kv.1)
    (hcoord : ∀ kv ∈ m.point_data, kv.1 ∉ coordNames)
    (hnodup : (m.point_data.map Prod.fst).Nodup) :
    (∀ g m0, read g = Except.ok m0 →
      ∃ a fd, g.attrs = some a ∧ dictGet a.elements (str "face") = some fd) ∧
    (∀ g2 warns m2, write freshGroup m now = Except.ok (g2, warns, m2) →
      (∃ a, g2.attrs = some a ∧ dictGet a.elements (str "face") = none) ∧
      read g2 = Except.error PyErr.keyError) := by
  constructor
  · intro g m0 hok
    rw [read] at hok
    cases ha : g.attrs with
    | none => rw [ha] at hok; exact Except.noConfusion hok
    | some a =>
      rw [ha] at hok
      dsimp only at hok
      cases hvd : dictGet a.elements (str "vertex") with
      | none => rw [hvd] at hok; exact Except.noConfusion hok
      | some vd =>
        rw [hvd] at hok
        dsimp only at hok
        cases hpl : propLasts vd.props with
        | error e => rw [hpl] at hok; exact Except.noConfusion hok
        | ok pointProps =>
          rw [hpl] at hok
          dsimp only at hok
          cases hface : dictGet a.elements (str "face") with
          | some fd => exact ⟨a, fd, rfl, hface⟩
          | none =>
            rw [hface] at hok
            dsimp only at hok
            split at hok
            · exact Except.noConfusion hok
            split at hok
            · exact Except.noConfusion hok
            split at hok
            · exact Except.noConfusion hok
            split at hok
            · exact Except.noConfusion hok
            · exact Except.noConfusion hok
  · intro g2 warns m2 h
    obtain ⟨lines, attrs, ch, hh, hp, hpts, hwc, hg2⟩ :=
      write_ok_parts freshGroup m now g2 warns m2 h
    rw [headerFromMesh_ok_nofaces m now hn (by omega)] at hh
    injection hh with hh2
    rw [Prod.mk.injEq, Prod.mk.injEq] at hh2
    obtain ⟨hlines, hwarns2, hm2⟩ := hh2
    rw [← hlines, parse_generated_nofaces m now] at hp
    injection hp with hp2
    subst hp2
    subst hm2
    have hbase : dictGet (freshGroup.children ++ [(str "points", writePointsGrp m)])
        (str "points") = some (writePointsGrp m) := rfl
    have hch : dictGet ch (str "points") = some (writePointsGrp m) := by
      rw [writeCells_preserve m.cell_data m.cells 0 _ ch hwc (str "points")
        (by rw [hbase]; rfl), hbase]
    constructor
    · exact ⟨⟨str "ascii 1.0", [genComment now], [(str "vertex", vertexElemDesc m)]⟩,
        by rw [hg2], rfl⟩
    · rw [hg2, read]
      dsimp only
      rw [show dictGet [(str "vertex", vertexElemDesc m)] (str "vertex")
          = some (vertexElemDesc m) from rfl]
      dsimp only
      rw [propLasts_vertexElemDesc m hwk]
      dsimp only
      rw [coordNames_filter_take m h3 hcoord]
      rw [hch]
      dsimp only
      rw [getCoordCols_write m m.points.ncols (le_refl _) h3 hcoord]
      dsimp only
      rw [List.map_map]
      rw [show (Prod.snd ∘ fun i => ((m.points.dtype, sliceCol m.points.rows i)
            : Dtype × List Int))
          = (fun i => sliceCol m.points.rows i) from rfl]
      rw [vstackT_slices m.points.rows m.points.ncols h1]
      dsimp only
      have hside : ∀ k ∈ coordNames.take m.points.ncols ++ pdNames1D m.point_data,
          (coordNames.take m.points.ncols).contains k = true
            ∨ (dictGet (writePointsGrp m).arrays k).isSome = true := by
        intro k hk
        rcases List.mem_append.1 hk with hk | hk
        · exact Or.inl ((contains_eq_mem _ _).2 hk)
        · obtain ⟨dt, xs, hv⟩ := mem_pdNames1D m.point_data k hk
          exact Or.inr (by rw [writePointsGrp_pd m k (ZVal.a1 dt xs) hv hnodup]; rfl)
      obtain ⟨r, hr⟩ := loadPointData_ok (writePointsGrp m) (coordNames.take m.points.ncols)
        (coordNames.take m.points.ncols ++ pdNames1D m.point_data) [] hside
      rw [hr]
      rfl

theorem c10_witness :
    (∀ g m0, read g = Except.ok m0 →
      ∃ a fd, g.attrs = some a ∧ dictGet a.elements (str "face") = some fd) ∧
    (∀ g2 warns m2, write freshGroup c10ExMesh ts0 = Except.ok (g2, warns, m2) →
      (∃ a, g2.attrs = some a ∧ dictGet a.elements (str "face") = none) ∧
      read g2 = Except.error PyErr.keyError) :=
  c10_face_required c10ExMesh ts0 (by decide) (by decide) (by decide) (by decide)
    (by decide) (by decide)

/-! ## C2: the write/read round trip -/

theorem headerFromMesh_ok_faces_eval (m : Mesh) (now : List Char)
    (h3 : ¬ m.points.ncols > 3) (hn : ¬ numCells m = 0)
    (hsame : ∀ c1 ∈ m.cells, ∀ c2 ∈ m.cells, downDt c1.2.dtype = downDt c2.2.dtype)
    (hcd : m.cell_data = []) :
    headerFromMesh m now
      = .ok ([str "ply", str "format ascii 1.0",
          str "comment Created by ply-zarr v0.0.1, " ++ now,
          str "element vertex " ++ natToChars m.points.nrows]
        ++ (coordNames.take m.points.ncols).map
            (fun c => str "property " ++ typeNameTable m.points.dtype ++ ' ' :: c)
        ++ (pdProps m.point_data).1
        ++ (str "element face " ++ natToChars (numCells m))
          :: (match headCellDtype (downCells m.cells) with
              | some dt =>
                [str "property list uint8 " ++ numpyToPlyDtype dt ++ str " vertex_indices"]
              | none => [])
        ++ [str "end_header"],
        (pdProps m.point_data).2
          ++ (if m.cells.any (fun c => c.2.dtype = Dtype.int64)
              then [Warning.downcast64] else []),
        { m with cells := downCells m.cells }) := by
  rw [headerFromMesh, if_neg h3]
  dsimp only
  rw [if_neg hn, checkCellDtype_downCells,
    if_pos (show ∀ c1 ∈ m.cells, ∀ c2 ∈ m.cells,
      downDt c1.2.dtype = downDt c2.2.dtype from hsame)]
  dsimp only
  rw [hcd]
  dsimp only [cellDataHeaderProps]
  cases headCellDtype (downCells m.cells) with
  | none =>
    dsimp only
    simp only [List.append_nil, List.nil_append]
  | some dt =>
    dsimp only
    simp only [List.append_nil, List.nil_append]

theorem headD_map_range {α : Type} (w : Nat) (hw : 1 ≤ w) (f : Nat → α) (d : α) :
    ((List.range w).map f).headD d = f 0 := by
  obtain ⟨v, rfl⟩ : ∃ v, w = v + 1 := ⟨w - 1, by omega⟩
  rw [List.range_succ_eq_map, List.map_cons]
  rfl

theorem writeCells_two (B3 B4 : Mat) (P : ZSubGroup)
    (hB3c : B3.ncols = 3) (hB4c : B4.ncols = 4) :
    writeCells [] [(str "triangle", B3), (str "quad", B4)] 0 [(str "points", P)]
      = .ok [(str "points", P),
          (str "3", ⟨[(str "vertex_indices", ZVal.a2 B3.dtype B3.rows)]⟩),
          (str "4", ⟨[(str "vertex_indices", ZVal.a2 B4.dtype B4.rows)]⟩)] := by
  rw [writeCells, hB3c]
  have h1 : dictGet [(str "points", P)] (natToChars 3) = none := rfl
  rw [if_neg (by rw [h1]; exact Bool.false_ne_true)]
  dsimp only [cellArrays, List.foldl, dictSet]
  rw [writeCells, hB4c]
  have h2 : dictGet ([(str "points", P)]
      ++ [(natToChars 3, (⟨[(str "vertex_indices", ZVal.a2 B3.dtype B3.rows)]⟩ : ZSubGroup))])
      (natToChars 4) = none := rfl
  rw [if_neg (by rw [h2]; exact Bool.false_ne_true)]
  dsimp only [cellArrays, List.foldl, dictSet]
  rw [writeCells]
  rfl

theorem c2_roundtrip_core (m : Mesh) (now : List Char) (B3 B4 : Mat)
    (hdc : downCells m.cells = [(str "triangle", B3), (str "quad", B4)])
    (hB3c : B3.ncols = 3) (hB3rl : B3.rows.length = 2) (hB3h : (B3.rows.headD []).length = 3)
    (hB4c : B4.ncols = 4) (hB4rl : B4.rows.length = 1) (hB4h : (B4.rows.headD []).length = 4)
    (hsame : ∀ c1 ∈ m.cells, ∀ c2 ∈ m.cells, downDt c1.2.dtype = downDt c2.2.dtype)
    (hn3 : numCells m = 3)
    (hcd : m.cell_data = [])
    (hrect : RectMat m.points) (h1 : 1 ≤ m.points.ncols) (h3 : m.points.ncols ≤ 3)
    (hwk : ∀ kv ∈ m.point_data, WFTok kv.1)
    (hcoord : ∀ kv ∈ m.point_data, kv.1 ∉ coordNames)
    (hnodup : (m.point_data.map Prod.fst).Nodup) :
    ∃ g2 warns m2 mr,
      write freshGroup m now = Except.ok (g2, warns, m2) ∧
      read g2 = Except.ok mr ∧
      mr.points.nrows = m.points.nrows ∧
      mr.points.rows = m.points.rows ∧
      mr.cell_data = [] ∧
      mr.cells = [(str "triangle", ⟨B3.dtype, 2, 3, B3.rows⟩),
                  (str "quad", ⟨B4.dtype, 1, 4, B4.rows⟩)] ∧
      ∃ sub3 sub4,
        dictGet g2.children (str "3") = some sub3 ∧
        dictGet g2.children (str "4") = some sub4 ∧
        dictGet sub3.arrays (str "vertex_indices") = some (ZVal.a2 B3.dtype B3.rows) ∧
        dictGet sub4.arrays (str "vertex_indices") = some (ZVal.a2 B4.dtype B4.rows) := by
  have hfm := headerFromMesh_ok_faces_eval m now (by omega) (by omega) hsame hcd
  rw [hdc] at hfm
  rw [show headCellDtype [(str "triangle", B3), (str "quad", B4)] = some B3.dtype from rfl]
    at hfm
  dsimp only at hfm
  rw [hn3] at hfm
  have hwrite : write freshGroup m now
      = Except.ok (⟨some ⟨str "ascii 1.0", [genComment now],
        [(str "vertex", vertexElemDesc m),
         (str "face", ⟨((3 : Nat) : Int),
           [[str "list", str "uint8", numpyToPlyDtype B3.dtype, str "vertex_indices"]]⟩)]⟩, [(str "points", writePointsGrp ({ m with cells := [(str "triangle", B3), (str "quad", B4)] } : Mesh)),
        (str "3", ⟨[(str "vertex_indices", ZVal.a2 B3.dtype B3.rows)]⟩),
        (str "4", ⟨[(str "vertex_indices", ZVal.a2 B4.dtype B4.rows)]⟩)]⟩, (pdProps m.point_data).2
        ++ (if m.cells.any (fun c => c.2.dtype = Dtype.int64)
            then [Warning.downcast64] else []), ({ m with cells := [(str "triangle", B3), (str "quad", B4)] } : Mesh)) := by
    rw [write, hfm]
    dsimp only
    rw [parse_generated_faces m now B3.dtype 3]
    dsimp only
    rw [if_neg (by decide)]
    dsimp only [freshGroup, List.nil_append]
    rw [hcd]
    rw [writeCells_two B3 B4
      (writePointsGrp
        { points := m.points, point_data := m.point_data,
          cells := [(str "triangle", B3), (str "quad", B4)], cell_data := [] })
      hB3c hB4c]
  have hside : ∀ k ∈ coordNames.take m.points.ncols ++ pdNames1D m.point_data,
      (coordNames.take m.points.ncols).contains k = true
        ∨ (dictGet (writePointsGrp ({ m with cells := [(str "triangle", B3), (str "quad", B4)] } : Mesh)).arrays k).isSome = true := by
    intro k hk
    rcases List.mem_append.1 hk with hk | hk
    · exact Or.inl ((contains_eq_mem _ _).2 hk)
    · obtain ⟨dt, xs, hv⟩ := mem_pdNames1D m.point_data k hk
      exact Or.inr (by
        rw [writePointsGrp_pd ({ m with cells := [(str "triangle", B3), (str "quad", B4)] } : Mesh) k (ZVal.a1 dt xs) hv hnodup]
        rfl)
  obtain ⟨r, hr⟩ := loadPointData_ok (writePointsGrp ({ m with cells := [(str "triangle", B3), (str "quad", B4)] } : Mesh))
    (coordNames.take m.points.ncols)
    (coordNames.take m.points.ncols ++ pdNames1D m.point_data) [] hside
  have hread : read ⟨some ⟨str "ascii 1.0", [genComment now],
        [(str "vertex", vertexElemDesc m),
         (str "face", ⟨((3 : Nat) : Int),
           [[str "list", str "uint8", numpyToPlyDtype B3.dtype, str "vertex_indices"]]⟩)]⟩, [(str "points", writePointsGrp ({ m with cells := [(str "triangle", B3), (str "quad", B4)] } : Mesh)),
        (str "3", ⟨[(str "vertex_indices", ZVal.a2 B3.dtype B3.rows)]⟩),
        (str "4", ⟨[(str "vertex_indices", ZVal.a2 B4.dtype B4.rows)]⟩)]⟩
      = Except.ok ⟨⟨m.points.dtype, m.points.rows.length,
          (coordNames.take m.points.ncols).length, m.points.rows⟩, r,
        [(str "triangle", ⟨B3.dtype, B3.rows.length, (B3.rows.headD []).length, B3.rows⟩),
         (str "quad", ⟨B4.dtype, B4.rows.length, (B4.rows.headD []).length, B4.rows⟩)],
        []⟩ := by
    rw [read]
    dsimp only
    rw [show dictGet [(str "vertex", vertexElemDesc m),
        (str "face", (⟨((3 : Nat) : Int),
          [[str "list", str "uint8", numpyToPlyDtype B3.dtype, str "vertex_indices"]]⟩
          : ElemDesc))] (str "vertex")
      = some (vertexElemDesc m) from rfl]
    dsimp only
    rw [propLasts_vertexElemDesc m hwk]
    dsimp only
    rw [coordNames_filter_take m h3 hcoord]
    rw [show dictGet [(str "points", writePointsGrp ({ m with cells := [(str "triangle", B3), (str "quad", B4)] } : Mesh)),
        (str "3", ⟨[(str "vertex_indices", ZVal.a2 B3.dtype B3.rows)]⟩),
        (str "4", ⟨[(str "vertex_indices", ZVal.a2 B4.dtype B4.rows)]⟩)] (str "points")
        = some (writePointsGrp ({ m with cells := [(str "triangle", B3), (str "quad", B4)] } : Mesh)) from rfl]
    dsimp only
    rw [getCoordCols_write ({ m with cells := [(str "triangle", B3), (str "quad", B4)] } : Mesh) m.points.ncols (le_refl m.points.ncols) h3 hcoord]
    dsimp only
    rw [show (({ m with cells := [(str "triangle", B3), (str "quad", B4)] } : Mesh)).points = m.points from rfl]
    rw [List.map_map]
    rw [show (Prod.snd ∘ fun i => ((m.points.dtype, sliceCol m.points.rows i)
          : Dtype × List Int))
        = (fun i => sliceCol m.points.rows i) from rfl]
    rw [vstackT_slices m.points.rows m.points.ncols h1]
    dsimp only
    rw [transposeAux_slices m.points.rows m.points.ncols
      (fun x hx => hrect.2 x hx)]
    rw [headD_map_range m.points.ncols h1
      (fun i => (m.points.dtype, sliceCol m.points.rows i)) (Dtype.float64, [])]
    dsimp only
    rw [hr]
    rfl
  refine ⟨⟨some ⟨str "ascii 1.0", [genComment now],
        [(str "vertex", vertexElemDesc m),
         (str "face", ⟨((3 : Nat) : Int),
           [[str "list", str "uint8", numpyToPlyDtype B3.dtype, str "vertex_indices"]]⟩)]⟩, [(str "points", writePointsGrp ({ m with cells := [(str "triangle", B3), (str "quad", B4)] } : Mesh)),
        (str "3", ⟨[(str "vertex_indices", ZVal.a2 B3.dtype B3.rows)]⟩),
        (str "4", ⟨[(str "vertex_indices", ZVal.a2 B4.dtype B4.rows)]⟩)]⟩, (pdProps m.point_data).2
        ++ (if m.cells.any (fun c => c.2.dtype = Dtype.int64)
            then [Warning.downcast64] else []), ({ m with cells := [(str "triangle", B3), (str "quad", B4)] } : Mesh), _, hwrite, hread, ?_, rfl, rfl, ?_, ?_⟩
  · exact hrect.1
  · dsimp only
    rw [hB3rl, hB3h, hB4rl, hB4h]
  · exact ⟨⟨[(str "vertex_indices", ZVal.a2 B3.dtype B3.rows)]⟩,
      ⟨[(str "vertex_indices", ZVal.a2 B4.dtype B4.rows)]⟩, rfl, rfl, rfl, rfl⟩

/-- C2 counterexample: a mesh of the claimed shape (1 point, empty cell_data,
two triangle rows and one quad row) whose blocks have distinct index dtypes
int16 and int32 makes write fail with the IOError, so write-then-read yields
no mesh at all. -/
theorem c2_counterexample :
    c2HetMesh.points.nrows = 1 ∧ c2HetMesh.cell_data = [] ∧
    (∃ b3 b4, c2HetMesh.cells = [(str "triangle", b3), (str "quad", b4)] ∧
      b3.nrows = 2 ∧ b3.ncols = 3 ∧ b4.nrows = 1 ∧ b4.ncols = 4) ∧
    write freshGroup c2HetMesh ts0 = Except.error PyErr.ioError := by
  exact ⟨rfl, rfl, ⟨_, _, rfl, rfl, rfl, rfl, rfl⟩, by decide⟩

/-- C2 (amended): for every mesh with N points (N ≥ 1, rectangular points
with 1 to 3 columns), empty cell_data, two triangle rows and one quad row
whose index dtypes agree after the 64-bit downcast, and sane point_data
names, write on a fresh container succeeds and read on the result yields a
mesh with the same point count, the exact coordinate rows, and cell blocks
grouped as an arity-3 bucket of 2 rows plus an arity-4 bucket of 1 row,
stored as the two distinct sibling sub-containers "3" and "4", each holding
its own vertex_indices array. -/
theorem c2_write_read_roundtrip (m : Mesh) (now : List Char) (dt1 dt2 : Dtype)
    (r1 r2 q1 : List Int)
    (hcells : m.cells = [(str "triangle", ⟨dt1, 2, 3, [r1, r2]⟩),
                         (str "quad", ⟨dt2, 1, 4, [q1]⟩)])
    (hlr1 : r1.length = 3) (hlr2 : r2.length = 3) (hlq1 : q1.length = 4)
    (hsame : downDt dt1 = downDt dt2)
    (hcd : m.cell_data = [])
    (hrect : RectMat m.points) (hnr : 1 ≤ m.points.nrows)
    (h1 : 1 ≤ m.points.ncols) (h3 : m.points.ncols ≤ 3)
    (hwk : ∀ kv ∈ m.point_data, WFTok kv.1)
    (hcoord : ∀ kv ∈ m.point_data, kv.1 ∉ coordNames)
    (hnodup : (m.point_data.map Prod.fst).Nodup) :
    ∃ g2 warns m2 mr,
      write freshGroup m now = Except.ok (g2, warns, m2) ∧
      read g2 = Except.ok mr ∧
      mr.points.nrows = m.points.nrows ∧
      mr.points.rows = m.points.rows ∧
      mr.cell_data = [] ∧
      (∃ mat3 mat4,
        mr.cells = [(str "triangle", mat3), (str "quad", mat4)] ∧
        mat3.nrows = 2 ∧ mat3.ncols = 3 ∧ mat3.rows.length = 2 ∧
        mat4.nrows = 1 ∧ mat4.ncols = 4 ∧ mat4.rows.length = 1) ∧
      (∃ sub3 sub4 dt3 rows3 dt4 rows4,
        dictGet g2.children (str "3") = some sub3 ∧
        dictGet g2.children (str "4") = some sub4 ∧
        dictGet sub3.arrays (str "vertex_indices") = some (ZVal.a2 dt3 rows3) ∧
        dictGet sub4.arrays (str "vertex_indices") = some (ZVal.a2 dt4 rows4) ∧
        rows3.length = 2 ∧ rows4.length = 1) := by
  have hn3 : numCells m = 3 := by
    simp only [numCells, hcells, List.map]
    rfl
  have hsameAll : ∀ c1 ∈ m.cells, ∀ c2 ∈ m.cells,
      downDt c1.2.dtype = downDt c2.2.dtype := by
    rw [hcells]
    intro c1 hc1 c2 hc2
    rcases List.mem_cons.1 hc1 with hc1 | hc1
    · rcases List.mem_cons.1 hc2 with hc2 | hc2
      · rw [hc1, hc2]
      · rcases List.mem_cons.1 hc2 with hc2 | hc2
        · rw [hc1, hc2]
          exact hsame
        · exact absurd hc2 (List.not_mem_nil _)
    · rcases List.mem_cons.1 hc1 with hc1 | hc1
      · rcases List.mem_cons.1 hc2 with hc2 | hc2
        · rw [hc1, hc2]
          exact hsame.symm
        · rcases List.mem_cons.1 hc2 with hc2 | hc2
          · rw [hc1, hc2]
          · exact absurd hc2 (List.not_mem_nil _)
      · exact absurd hc1 (List.not_mem_nil _)
  by_cases hd1 : dt1 = Dtype.int64
  · by_cases hd2 : dt2 = Dtype.int64
    · have hdc : downCells m.cells = [(str "triangle", (⟨Dtype.int32, 2, 3, [r1.map castInt32, r2.map castInt32]⟩ : Mat)), (str "quad", (⟨Dtype.int32, 1, 4, [q1.map castInt32]⟩ : Mat))] := by
        simp only [hcells, downCells, List.map]
        rw [if_pos (show dt1 = Dtype.int64 from hd1)]
        rw [if_pos (show dt2 = Dtype.int64 from hd2)]
        rfl
      obtain ⟨g2, warns, m2, mr, hw, hrd, hnra, hrwa, hcda, hcl,
          sub3, sub4, hs3, hs4, hv3, hv4⟩ :=
        c2_roundtrip_core m now (⟨Dtype.int32, 2, 3, [r1.map castInt32, r2.map castInt32]⟩ : Mat) (⟨Dtype.int32, 1, 4, [q1.map castInt32]⟩ : Mat) hdc rfl rfl (by simp [hlr1]) rfl rfl (by simp [hlq1])
          hsameAll hn3 hcd hrect h1 h3 hwk hcoord hnodup
      exact ⟨g2, warns, m2, mr, hw, hrd, hnra, hrwa, hcda,
        ⟨_, _, hcl, rfl, rfl, rfl, rfl, rfl, rfl⟩,
        ⟨sub3, sub4, _, _, _, _, hs3, hs4, hv3, hv4, rfl, rfl⟩⟩
    · have hdc : downCells m.cells = [(str "triangle", (⟨Dtype.int32, 2, 3, [r1.map castInt32, r2.map castInt32]⟩ : Mat)), (str "quad", (⟨dt2, 1, 4, [q1]⟩ : Mat))] := by
        simp only [hcells, downCells, List.map]
        rw [if_pos (show dt1 = Dtype.int64 from hd1)]
        rw [if_neg (show ¬ dt2 = Dtype.int64 from hd2)]
        rfl
      obtain ⟨g2, warns, m2, mr, hw, hrd, hnra, hrwa, hcda, hcl,
          sub3, sub4, hs3, hs4, hv3, hv4⟩ :=
        c2_roundtrip_core m now (⟨Dtype.int32, 2, 3, [r1.map castInt32, r2.map castInt32]⟩ : Mat) (⟨dt2, 1, 4, [q1]⟩ : Mat) hdc rfl rfl (by simp [hlr1]) rfl rfl (by simp [hlq1])
          hsameAll hn3 hcd hrect h1 h3 hwk hcoord hnodup
      exact ⟨g2, warns, m2, mr, hw, hrd, hnra, hrwa, hcda,
        ⟨_, _, hcl, rfl, rfl, rfl, rfl, rfl, rfl⟩,
        ⟨sub3, sub4, _, _, _, _, hs3, hs4, hv3, hv4, rfl, rfl⟩⟩
  · by_cases hd2 : dt2 = Dtype.int64
    · have hdc : downCells m.cells = [(str "triangle", (⟨dt1, 2, 3, [r1, r2]⟩ : Mat)), (str "quad", (⟨Dtype.int32, 1, 4, [q1.map castInt32]⟩ : Mat))] := by
        simp only [hcells, downCells, List.map]
        rw [if_neg (show ¬ dt1 = Dtype.int64 from hd1)]
        rw [if_pos (show dt2 = Dtype.int64 from hd2)]
        rfl
      obtain ⟨g2, warns, m2, mr, hw, hrd, hnra, hrwa, hcda, hcl,
          sub3, sub4, hs3, hs4, hv3, hv4⟩ :=
        c2_roundtrip_core m now (⟨dt1, 2, 3, [r1, r2]⟩ : Mat) (⟨Dtype.int32, 1, 4, [q1.map castInt32]⟩ : Mat) hdc rfl rfl (by simp [hlr1]) rfl rfl (by simp [hlq1])
          hsameAll hn3 hcd hrect h1 h3 hwk hcoord hnodup
      exact ⟨g2, warns, m2, mr, hw, hrd, hnra, hrwa, hcda,
        ⟨_, _, hcl, rfl, rfl, rfl, rfl, rfl, rfl⟩,
        ⟨sub3, sub4, _, _, _, _, hs3, hs4, hv3, hv4, rfl, rfl⟩⟩
    · have hdc : downCells m.cells = [(str "triangle", (⟨dt1, 2, 3, [r1, r2]⟩ : Mat)), (str "quad", (⟨dt2, 1, 4, [q1]⟩ : Mat))] := by
        simp only [hcells, downCells, List.map]
        rw [if_neg (show ¬ dt1 = Dtype.int64 from hd1)]
        rw [if_neg (show ¬ dt2 = Dtype.int64 from hd2)]
      obtain ⟨g2, warns, m2, mr, hw, hrd, hnra, hrwa, hcda, hcl,
          sub3, sub4, hs3, hs4, hv3, hv4⟩ :=
        c2_roundtrip_core m now (⟨dt1, 2, 3, [r1, r2]⟩ : Mat) (⟨dt2, 1, 4, [q1]⟩ : Mat) hdc rfl rfl (by simp [hlr1]) rfl rfl (by simp [hlq1])
          hsameAll hn3 hcd hrect h1 h3 hwk hcoord hnodup
      exact ⟨g2, warns, m2, mr, hw, hrd, hnra, hrwa, hcda,
        ⟨_, _, hcl, rfl, rfl, rfl, rfl, rfl, rfl⟩,
        ⟨sub3, sub4, _, _, _, _, hs3, hs4, hv3, hv4, rfl, rfl⟩⟩

theorem c2_witness :
    ∃ g2 warns m2 mr,
      write freshGroup c2ExMesh ts0 = Except.ok (g2, warns, m2) ∧
      read g2 = Except.ok mr ∧
      mr.points.nrows = c2ExMesh.points.nrows ∧
      mr.points.rows = c2ExMesh.points.rows ∧
      mr.cell_data = [] ∧
      (∃ mat3 mat4,
        mr.cells = [(str "triangle", mat3), (str "quad", mat4)] ∧
        mat3.nrows = 2 ∧ mat3.ncols = 3 ∧ mat3.rows.length = 2 ∧
        mat4.nrows = 1 ∧ mat4.ncols = 4 ∧ mat4.rows.length = 1) ∧
      (∃ sub3 sub4 dt3 rows3 dt4 rows4,
        dictGet g2.children (str "3") = some sub3 ∧
        dictGet g2.children (str "4") = some sub4 ∧
        dictGet sub3.arrays (str "vertex_indices") = some (ZVal.a2 dt3 rows3) ∧
        dictGet sub4.arrays (str "vertex_indices") = some (ZVal.a2 dt4 rows4) ∧
        rows3.length = 2 ∧ rows4.length = 1) :=
  c2_write_read_roundtrip c2ExMesh ts0 Dtype.int32 Dtype.int32 [0, 1, 2] [0, 2, 1] [0, 1, 2, 3]
    (by decide) (by decide) (by decide) (by decide) (by decide) (by decide) (by decide)
    (by decide) (by decide) (by decide) (by decide) (by decide) (by decide)

end PlyZarr
